import Mathlib

/-!
Verification development for the r/progmetal spotify-catalog sync engine.

This file gives a shallow embedding, in Lean, of the parts of the Python
code base that the verified properties talk about:

* `catalog/services/album_cache.py` — `extract_spotify_album_id`
* `catalog/services/sync_manager.py` — `classify_and_handle_error` and the
  tab/row loop of `SyncManager.run_sync`
* `catalog/services/google_sheets.py` — `GoogleSheetsService._find_header_row`,
  `GoogleSheetsService.sort_tabs_chronologically`,
  `GoogleSheetsService.parse_release_date`
* `catalog/services/album_importer.py` — `AlbumImporter._import_single_album`
  (JIT branch, `spotify_metadata is None`), `_map_genres`, `_map_vocal_style`
* `catalog/models.py` — the `Album` row shape (fields a claim touches)

Conventions of the embedding:
* Python machine-level effects (database rows, counters) are explicit state
  threaded through functions; `Album.objects` is a `List Album` inside `DB`.
* Python exceptions are modelled with `Except`/an explicit exception type
  `PyExc`; a function that cannot raise returns a plain value.
* Python ints are `Int` (arbitrary precision, `%` is `Int.emod`, which agrees
  with Python `%` on a positive modulus); list/str indices are `Nat`.
* `datetime.now().year` (used by `parse_release_date` when no year is given)
  is impure; it is passed in as an explicit `nowYear` argument.
-/

namespace ProgMetal

/-! ### Small Python string helpers -/

/-- ASCII alphanumeric test, the semantics of the regex class `[a-zA-Z0-9]`. -/
def isAlnumAscii (c : Char) : Bool :=
  ('a' ≤ c && c ≤ 'z') || ('A' ≤ c && c ≤ 'Z') || ('0' ≤ c && c ≤ '9')

/-- Python `str.strip()` whitespace set (the characters `str.strip` removes
by default). -/
def isPyWs (c : Char) : Bool :=
  c = ' ' || c = '\t' || c = '\n' || c = '\r' || c = '\x0b' || c = '\x0c'

/-- Python `str.strip()` on a character list: drop leading and trailing
whitespace. -/
def pyStripList (l : List Char) : List Char :=
  ((l.dropWhile isPyWs).reverse.dropWhile isPyWs).reverse

/-- Python `str.strip()`. -/
def pyStrip (s : String) : String :=
  (pyStripList s.toList).asString

/-- Case-insensitive equality of strings (Python `str.lower() == str.lower()`
for the ASCII strings this code handles). -/
def ciEq (a b : String) : Bool :=
  a.toList.map Char.toLower = b.toList.map Char.toLower

/-- Python `str.lower()` (ASCII). -/
def strToLower (s : String) : String :=
  (s.toList.map Char.toLower).asString

/-- Python `s[:n]` for strings. -/
def strTake (s : String) (n : Nat) : String :=
  (s.toList.take n).asString

/-- Python `len(s)`. -/
def strLength (s : String) : Nat :=
  s.toList.length

/-- Python `s.split(",")`: split on every comma; `"".split(",") == [""]`. -/
def splitOnCommaAux (cur : List Char) : List Char → List (List Char)
  | [] => [cur.reverse]
  | c :: rest =>
    if c = ',' then cur.reverse :: splitOnCommaAux [] rest
    else splitOnCommaAux (c :: cur) rest

/-- Python `s.split(",")`. -/
def splitOnComma (s : String) : List String :=
  (splitOnCommaAux [] s.toList).map List.asString

/-- Python `sep.join(parts)`. -/
def joinWith (sep : String) : List String → String
  | [] => ""
  | [x] => x
  | x :: rest => x ++ sep ++ joinWith sep rest

/-- Substring containment on character lists (`needle in haystack` in
Python). -/
def listContains (haystack needle : List Char) : Bool :=
  match haystack with
  | [] => needle.isEmpty
  | _ :: rest => needle.isPrefixOf haystack || listContains rest needle

/-- Python `needle in haystack` for strings. -/
def strContains (haystack needle : String) : Bool :=
  listContains haystack.toList needle.toList

/-- Collapse runs of `[-\s]` to a single `-`
(django `slugify`'s final `re.sub(r"[-\s]+", "-", value)`); the flag records
whether the previous character was part of such a run. -/
def collapseDashWsAux : Bool → List Char → List Char
  | _, [] => []
  | inRun, c :: rest =>
    if isPyWs c || c = '-' then
      if inRun then collapseDashWsAux true rest
      else '-' :: collapseDashWsAux true rest
    else
      c :: collapseDashWsAux false rest

/-- Collapse runs of `[-\s]` to a single `-`. -/
def collapseDashWs (l : List Char) : List Char :=
  collapseDashWsAux false l

/-- `django.utils.text.slugify` restricted to ASCII input (the NFKD/ascii
encode step is the identity there): lowercase, drop characters outside
`[\w\s-]`, collapse runs of whitespace/hyphen to `-`, strip `-`/`_` from both
ends. -/
def slugify (s : String) : String :=
  let lowered := s.toList.map Char.toLower
  let kept := lowered.filter fun c =>
    isAlnumAscii c || c = '_' || isPyWs c || c = '-'
  let collapsed := collapseDashWs kept
  let stripEnds := fun (l : List Char) =>
    ((l.dropWhile (fun c => c = '-' || c = '_')).reverse.dropWhile
      (fun c => c = '-' || c = '_')).reverse
  (stripEnds collapsed).asString

/-! ### `album_cache.extract_spotify_album_id`

Embedding of `catalog/services/album_cache.py`:

    SPOTIFY_ALBUM_URL_PATTERN = re.compile(r"open\.spotify\.com/album/([a-zA-Z0-9]{22})")

    def extract_spotify_album_id(spotify_url):
        if not spotify_url:
            return None
        match = SPOTIFY_ALBUM_URL_PATTERN.search(spotify_url)
        if match:
            return match.group(1)
        return None

`re.search` finds the leftmost start position at which the literal marker is
followed by exactly 22 characters of `[a-zA-Z0-9]`. -/

/-- The literal part of `SPOTIFY_ALBUM_URL_PATTERN`. -/
def spotifyMarker : List Char := "open.spotify.com/album/".toList

/-- Attempt a match of the album-URL pattern anchored at the head of `l`:
the marker must be a prefix and the following 22 characters must all be
ASCII alphanumerics. -/
def idCandidate (l : List Char) : Option (List Char) :=
  if spotifyMarker.isPrefixOf l then
    let t := (l.drop spotifyMarker.length).take 22
    if t.length = 22 && t.all isAlnumAscii then some t else none
  else none

/-- `re.search` over the pattern: try each start position left to right. -/
def searchAlbumId : List Char → Option (List Char)
  | [] => none
  | c :: rest =>
    match idCandidate (c :: rest) with
    | some t => some t
    | none => searchAlbumId rest

/-- `album_cache.extract_spotify_album_id`. -/
def extract_spotify_album_id (spotify_url : String) : Option String :=
  if spotify_url = "" then none
  else (searchAlbumId spotify_url.toList).map List.asString

/-! ### Exceptions and `sync_manager.classify_and_handle_error`

`PyExc` models the dynamic class of a caught Python exception, together with
its message (`str(error)`).  The predicate `isOSError` reflects Python's
class hierarchy: `requests.exceptions.RequestException` is declared as
`class RequestException(IOError)` in `requests/exceptions.py`, and in
Python 3 `IOError is OSError`; hence `requests` `ConnectionError`, `Timeout`
and `HTTPError` instances all satisfy `isinstance(e, OSError)`.
`MemoryError`, `ValueError`, `KeyError`, `IndexError` and plain `Exception`
subclasses (such as the repo's `TabProcessingError` and `CriticalSyncError`)
do not. -/

inductive PyExc where
  | criticalSyncError (msg : String)
  | requestsConnectionError (msg : String)
  | requestsTimeout (msg : String)
  | requestsHTTPError (msg : String)
  | osError (msg : String)
  | memoryError (msg : String)
  | tabProcessingError (msg : String)
  | valueError (msg : String)
  | keyError (msg : String)
  | indexError (msg : String)
  | otherError (className msg : String)
deriving DecidableEq, Repr

/-- `str(error)`. -/
def PyExc.msg : PyExc → String
  | .criticalSyncError m => m
  | .requestsConnectionError m => m
  | .requestsTimeout m => m
  | .requestsHTTPError m => m
  | .osError m => m
  | .memoryError m => m
  | .tabProcessingError m => m
  | .valueError m => m
  | .keyError m => m
  | .indexError m => m
  | .otherError _ m => m

/-- `isinstance(error, CriticalSyncError)`. -/
def PyExc.isCriticalSyncError : PyExc → Bool
  | .criticalSyncError _ => true
  | _ => false

/-- `isinstance(error, requests.exceptions.ConnectionError)`. -/
def PyExc.isRequestsConnectionError : PyExc → Bool
  | .requestsConnectionError _ => true
  | _ => false

/-- `isinstance(error, OSError)` — see the class-hierarchy note above:
every `requests.exceptions.RequestException` is an `OSError`. -/
def PyExc.isOSError : PyExc → Bool
  | .requestsConnectionError _ => true
  | .requestsTimeout _ => true
  | .requestsHTTPError _ => true
  | .osError _ => true
  | _ => false

/-- `isinstance(error, MemoryError)`. -/
def PyExc.isMemoryError : PyExc → Bool
  | .memoryError _ => true
  | _ => false

/-- `isinstance(error, TabProcessingError)`. -/
def PyExc.isTabProcessingError : PyExc → Bool
  | .tabProcessingError _ => true
  | _ => false

/-- `isinstance(error, (ValueError, KeyError, IndexError))`. -/
def PyExc.isValueKeyIndexError : PyExc → Bool
  | .valueError _ => true
  | .keyError _ => true
  | .indexError _ => true
  | _ => false

/-- `isinstance(error, requests.exceptions.Timeout)`. -/
def PyExc.isRequestsTimeout : PyExc → Bool
  | .requestsTimeout _ => true
  | _ => false

/-- `sync_manager.classify_and_handle_error`, branch for branch in source
order.  Returns `(should_continue, error_message)`. -/
def classify_and_handle_error (e : PyExc) : Bool × String :=
  if e.isCriticalSyncError then
    (false, "Critical sync error: " ++ e.msg)
  else if e.isRequestsConnectionError then
    (false, "Connection error: Cannot reach external services. " ++ e.msg)
  else if e.isOSError then
    (false, "File I/O error: Cannot read Excel file. " ++ e.msg)
  else if e.isMemoryError then
    (false, "Memory error: System out of memory. " ++ e.msg)
  else if e.isTabProcessingError then
    (true, "Tab processing error: " ++ e.msg)
  else if e.isValueKeyIndexError then
    (true, "Data format error in tab: " ++ e.msg)
  else if e.isRequestsTimeout then
    (true, "Request timeout for tab: " ++ e.msg)
  else
    (true, "Unexpected error in tab: " ++ e.msg)

/-! ### `google_sheets.GoogleSheetsService._find_header_row`

    for row_idx in range(1, 20):  # Check first 20 rows
        first_cell = worksheet.cell(row=row_idx, column=1).value
        if first_cell == "Artist":
            return row_idx
    raise ValueError("Could not find header row with 'Artist' column")

The worksheet's first column is modelled as a list of optional cell values;
`cell(row=r, column=1).value` is `col1.getD (r-1) none` (openpyxl returns
`None` for cells that were never written). -/

/-- `_find_header_row`.  `.ok r` is `return r`; `.error m` is
`raise ValueError(m)`.  Note `range(1, 20)` iterates `1..19`. -/
def find_header_row (col1 : List (Option String)) : Except String Nat :=
  match (List.range' 1 19).find? (fun r => col1.getD (r - 1) none = some "Artist") with
  | some r => .ok r
  | none => .error "Could not find header row with 'Artist' column"

/-! ### `google_sheets.TabMetadata` and `sort_tabs_chronologically` -/

/-- `google_sheets.TabMetadata` (dataclass). -/
structure TabMetadata where
  name : String
  normalized_name : String
  year : Option Int
  order : Nat
  is_prog_metal : Bool
  estimated_rows : Option Nat := none
deriving DecidableEq, Repr

/-- The sort key used by `with_year.sort(key=lambda t: t.year)`.  On the
`with_year` partition every `year` is `some`; `getD 0` is only a totalizer. -/
def tabYearKey (t : TabMetadata) : Int := t.year.getD 0

/-- `sort_tabs_chronologically`:

    with_year = [t for t in tabs if t.year is not None]
    without_year = [t for t in tabs if t.year is None]
    with_year.sort(key=lambda t: t.year)
    return with_year + without_year

Python's `list.sort` is a stable sort by the key; `List.insertionSort`
with the reflexive relation `key a ≤ key b` is a stable sort by the same
key, so it computes the same list. -/
def sort_tabs_chronologically (tabs : List TabMetadata) : List TabMetadata :=
  let with_year := tabs.filter (fun t => t.year.isSome)
  let without_year := tabs.filter (fun t => t.year.isNone)
  (with_year.insertionSort (fun a b => tabYearKey a ≤ tabYearKey b)) ++ without_year

/-! ### Dates and `google_sheets.GoogleSheetsService.parse_release_date` -/

/-- A `datetime.date` value (`datetime.datetime` values are identified with
their date part: `parse_release_date` immediately calls `.date()` and the
time of day never matters to it). -/
structure PyDate where
  year : Int
  month : Nat
  day : Nat
deriving DecidableEq, Repr

/-- Gregorian leap-year rule used by `datetime`. -/
def isLeapYear (y : Int) : Bool :=
  y % 4 = 0 && (y % 100 ≠ 0 || y % 400 = 0)

/-- `calendar` month lengths as validated by the `datetime` constructor. -/
def daysInMonth (y : Int) (m : Nat) : Nat :=
  match m with
  | 1 => 31
  | 2 => if isLeapYear y then 29 else 28
  | 3 => 31
  | 4 => 30
  | 5 => 31
  | 6 => 30
  | 7 => 31
  | 8 => 31
  | 9 => 30
  | 10 => 31
  | 11 => 30
  | 12 => 31
  | _ => 0

/-- `d.replace(year=y)` for a `date`/`datetime` `d`.  The `datetime`
constructor re-validates the day against the new year and raises
`ValueError("day is out of range for month")` when e.g. February 29 is moved
to a non-leap year. -/
def dateReplaceYear (d : PyDate) (y : Int) : Except String PyDate :=
  if 1 ≤ d.day && d.day ≤ daysInMonth y d.month then
    .ok { d with year := y }
  else
    .error "day is out of range for month"

/-- The English month names matched by `strptime`'s `%B` directive
(locale `C`), paired with their month numbers.  No name is a prefix of
another, so first-match scanning is exact. -/
def monthNames : List (Nat × String) :=
  [(1, "January"), (2, "February"), (3, "March"), (4, "April"), (5, "May"),
   (6, "June"), (7, "July"), (8, "August"), (9, "September"), (10, "October"),
   (11, "November"), (12, "December")]

/-- Case-insensitive literal match at the head of `l` (`strptime` compiles
its regex with `IGNORECASE`); returns the rest of the input on success. -/
def matchCI (pat : String) (l : List Char) : Option (List Char) :=
  let p := pat.toList
  if p.length ≤ l.length && (l.take p.length).map Char.toLower = p.map Char.toLower then
    some (l.drop p.length)
  else
    none

/-- Match `\s+` (a whitespace run in a `strptime` format): at least one
whitespace character, consumed greedily. -/
def matchWs1 (l : List Char) : Option (List Char) :=
  match l with
  | [] => none
  | c :: rest => if isPyWs c then some (rest.dropWhile isPyWs) else none

/-- The alternatives of `strptime`'s `%d` regex
`(3[01]|[12]\d|0[1-9]|[1-9])`, in the engine's order, as
`(day value, rest of input)` candidates.  (The trailing ` [1-9]`
alternative is redundant here because the format's preceding whitespace is
already consumed greedily.) -/
def dayCandidates (l : List Char) : List (Nat × List Char) :=
  let c2 := match l with
    | a :: b :: rest =>
      if a = '3' && (b = '0' || b = '1') then
        [((30 + (b.toNat - '0'.toNat) : Nat), rest)]
      else if (a = '1' || a = '2') && b.isDigit then
        [(((a.toNat - '0'.toNat) * 10 + (b.toNat - '0'.toNat) : Nat), rest)]
      else if a = '0' && ('1' ≤ b && b ≤ '9') then
        [((b.toNat - '0'.toNat : Nat), rest)]
      else []
    | _ => []
  let c1 := match l with
    | a :: rest => if '1' ≤ a && a ≤ '9' then [((a.toNat - '0'.toNat : Nat), rest)] else []
    | _ => []
  c2 ++ c1

/-- After the day: the format's literal `","`, then `\s+`, then `%Y`
(exactly four digits, regex `\d\d\d\d`), then end of input (`strptime`
raises on unconverted trailing data). -/
def matchTailYear (l : List Char) : Option Int :=
  match l with
  | ',' :: rest =>
    match matchWs1 rest with
    | some rest2 =>
      match rest2 with
      | [d1, d2, d3, d4] =>
        if d1.isDigit && d2.isDigit && d3.isDigit && d4.isDigit then
          some (((d1.toNat - '0'.toNat) * 1000 + (d2.toNat - '0'.toNat) * 100 +
                 (d3.toNat - '0'.toNat) * 10 + (d4.toNat - '0'.toNat) : Nat) : Int)
        else none
      | _ => none
    | none => none
  | _ => none

/-- Try the day alternatives in order against the rest of the format. -/
def tryDayCandidates (m : Nat) : List (Nat × List Char) → Option PyDate
  | [] => none
  | (d, rest) :: others =>
    match matchTailYear rest with
    | some y => some { year := y, month := m, day := d }
    | none => tryDayCandidates m others

/-- Try each month name in turn for the `%B` directive. -/
def tryMonths (l : List Char) : List (Nat × String) → Option PyDate
  | [] => none
  | (m, name) :: others =>
    match matchCI name l with
    | some rest =>
      match matchWs1 rest with
      | some rest2 => tryDayCandidates m (dayCandidates rest2)
      | none => tryMonths l others
    | none => tryMonths l others

/-- `datetime.strptime(s, "%B %d, %Y")`, reduced to the success/failure the
caller observes: `none` covers both a regex mismatch and the `ValueError`
the `datetime` constructor raises for an out-of-range day (the caller
catches `ValueError` in both cases). -/
def strptimeBdY (s : String) : Option PyDate :=
  match tryMonths s.toList monthNames with
  | some d => if 1 ≤ d.day && d.day ≤ daysInMonth d.year d.month then some d else none
  | none => none

/-- The dynamic type of a raw release-date cell value, as
`parse_release_date` discriminates it: a `datetime` instance, a plain `date`
object (`hasattr(v, "year") and hasattr(v, "month")`), or a string. -/
inductive DateValue where
  | dt (d : PyDate)
  | dateObj (d : PyDate)
  | str (s : String)
deriving DecidableEq, Repr

/-- Python truthiness of a release-date value (`if not date_value`):
`datetime`/`date` objects are always truthy; a string is falsy iff empty. -/
def DateValue.truthy : DateValue → Bool
  | .dt _ => true
  | .dateObj _ => true
  | .str s => s ≠ ""

/-- `GoogleSheetsService.parse_release_date(date_value, year)`.

`.error m` models an uncaught `ValueError` escaping the method (raised by
`date.replace(year=...)`); `.ok none` is a `return None`; `nowYear` stands
for `datetime.now().year`, used only when `year is None`. -/
def parse_release_date (date_value : Option DateValue) (year : Option Int)
    (nowYear : Int) : Except String (Option PyDate) :=
  match date_value with
  | none => .ok none
  | some v =>
    if !v.truthy then .ok none
    else
      match v with
      | .dt d =>
        match year with
        | some y => if d.year ≠ y then (dateReplaceYear d y).map some else .ok (some d)
        | none => .ok (some d)
      | .dateObj d =>
        match year with
        | some y => if d.year ≠ y then (dateReplaceYear d y).map some else .ok (some d)
        | none => .ok (some d)
      | .str s =>
        let date_str := pyStrip s
        if date_str = "" then .ok none
        else
          let y := year.getD nowYear
          match strptimeBdY (date_str ++ ", " ++ toString y) with
          | some d => .ok (some d)
          | none =>
            match strptimeBdY (date_str ++ " 1, " ++ toString y) with
            | some d => .ok (some d)
            | none => .ok none

/-! ### The catalog store (`catalog/models.py`)

Django rows are modelled as records; each table is a list inside `DB`.
Foreign keys (`Album.artist`, `Album.vocal_style`) and the genre
many-to-many relation are modelled by the referenced row's `name` (in the
JIT sync flow artists/genres/styles are looked up and created by name). -/

/-- `models.Artist`.  `country` is blank (`""`) when unknown. -/
structure Artist where
  name : String
  country : String
  spotify_artist_id : Option String := none
deriving DecidableEq, Repr

/-- `models.Genre` (the fields sync touches). -/
structure Genre where
  name : String
  slug : String
deriving DecidableEq, Repr

/-- `models.VocalStyle`. -/
structure VocalStyle where
  name : String
  slug : String
deriving DecidableEq, Repr

/-- `models.Album` — the columns relevant to sync and to the JIT cache.
Timestamps are abstract ticks (`Nat`). -/
structure Album where
  spotify_album_id : String
  name : String
  artist : String
  genres : List String
  vocal_style : Option String
  release_date : Option PyDate
  cover_art_url : Option String
  spotify_url : String
  spotify_cover_url : Option String := none
  spotify_cover_cached_at : Option Nat := none
  spotify_metadata_json : Option String := none
  spotify_metadata_cached_at : Option Nat := none
deriving DecidableEq, Repr

/-- The relational store. -/
structure DB where
  artists : List Artist
  genres : List Genre
  vocal_styles : List VocalStyle
  albums : List Album
deriving DecidableEq, Repr

/-- The empty catalog. -/
def DB.empty : DB := ⟨[], [], [], []⟩

/-- The external identifiers present in the catalog. -/
def DB.albumIds (db : DB) : List String :=
  db.albums.map (fun a => a.spotify_album_id)

/-- `Album.objects.filter(spotify_album_id=album_id).exists()`. -/
def DB.albumExists (db : DB) (album_id : String) : Bool :=
  db.albums.any (fun a => a.spotify_album_id = album_id)

/-! ### Entity resolution (`album_importer._map_genres`, `_map_vocal_style`)
and the artist lookup of the JIT import branch. -/

/-- `Artist.objects.get_or_create(name=..., defaults={"country": ...})`. -/
def artist_get_or_create (db : DB) (name country : String) : Artist × DB :=
  match db.artists.find? (fun a => a.name = name) with
  | some a => (a, db)
  | none =>
    let a : Artist := { name := name, country := country }
    (a, { db with artists := db.artists ++ [a] })

/-- `Genre.objects.get_or_create(name=..., defaults={"slug": slugify(...)})`. -/
def genre_get_or_create (db : DB) (name : String) : Genre × DB :=
  match db.genres.find? (fun g => g.name = name) with
  | some g => (g, db)
  | none =>
    let g : Genre := { name := name, slug := slugify name }
    (g, { db with genres := db.genres ++ [g] })

/-- `VocalStyle.objects.get_or_create(name=..., defaults={"slug": ...})`. -/
def vocal_style_get_or_create (db : DB) (name : String) : VocalStyle × DB :=
  match db.vocal_styles.find? (fun v => v.name = name) with
  | some v => (v, db)
  | none =>
    let v : VocalStyle := { name := name, slug := slugify name }
    (v, { db with vocal_styles := db.vocal_styles ++ [v] })

/-- Lexicographic comparison of character lists by code point (the binary
collation a database applies to `ORDER BY name`). -/
def listCharLe : List Char → List Char → Bool
  | [], _ => true
  | _ :: _, [] => false
  | a :: as, b :: bs =>
    if a.toNat < b.toNat then true
    else if b.toNat < a.toNat then false
    else listCharLe as bs

/-- Binary-collation `≤` on strings. -/
def strLeBytes (a b : String) : Bool :=
  listCharLe a.toList b.toList

/-- `Genre.objects.all()` — `Genre.Meta.ordering = ["name"]`, so iteration
is in ascending name order. -/
def genres_all (db : DB) : List Genre :=
  db.genres.insertionSort (fun a b => strLeBytes a.name b.name = true)

/-- Resolve one comma-separated genre token, as in the body of the loop in
`_map_genres`: case-insensitive exact match, else first existing genre whose
lowercased name is a substring of the lowercased token, else create. -/
def resolve_genre_token (db : DB) (tok : String) : Genre × DB :=
  match db.genres.find? (fun g => ciEq g.name tok) with
  | some g => (g, db)
  | none =>
    match (genres_all db).find? (fun g => strContains (strToLower tok) (strToLower g.name)) with
    | some g => (g, db)
    | none => genre_get_or_create db tok

/-- The per-token loop of `_map_genres`. -/
def map_genres_tokens (db : DB) : List String → List Genre × DB
  | [] => ([], db)
  | tok :: rest =>
    let g := resolve_genre_token db tok
    let gs := map_genres_tokens g.2 rest
    (g.1 :: gs.1, gs.2)

/-- `AlbumImporter._map_genres`. -/
def map_genres (db : DB) (genre_text : String) : List Genre × DB :=
  if genre_text = "" then
    let g := genre_get_or_create db "Progressive Metal"
    ([g.1], g.2)
  else
    let genre_names := ((splitOnComma genre_text).map pyStrip).filter
      (fun t => t ≠ "")
    if genre_names = [] then
      let g := genre_get_or_create db "Progressive Metal"
      ([g.1], g.2)
    else
      map_genres_tokens db genre_names

/-- `AlbumImporter._map_vocal_style`. -/
def map_vocal_style (db : DB) (vocal_style_text : String) : VocalStyle × DB :=
  if vocal_style_text = "" then
    vocal_style_get_or_create db "Mixed Vocals (Clean & Harsh)"
  else
    let normalized := strToLower (pyStrip vocal_style_text)
    match db.vocal_styles.find? (fun v => ciEq v.name vocal_style_text) with
    | some v => (v, db)
    | none =>
      if strContains normalized "instrumental" || strContains normalized "no vocal" then
        vocal_style_get_or_create db "Instrumental (No Vocals)"
      else if strContains normalized "mixed" then
        vocal_style_get_or_create db "Mixed Vocals (Clean & Harsh)"
      else if strContains normalized "clean" then
        vocal_style_get_or_create db "Clean Vocals"
      else if strContains normalized "harsh" || strContains normalized "scream" ||
          strContains normalized "growl" then
        vocal_style_get_or_create db "Harsh Vocals"
      else
        vocal_style_get_or_create db vocal_style_text

/-! ### The Merge Engine: `AlbumImporter._import_single_album`, JIT branch
(`spotify_metadata is None`, the path taken by `SyncManager.run_sync`). -/

/-- One candidate row as produced by `fetch_albums_from_tab` (the
`sheets_data` dictionary). -/
structure RowData where
  artist : String
  album : String
  release_date : Option DateValue
  genre : String
  vocal_style : String
  country : String
  spotify_url : String
  tab_year : Option Int
deriving DecidableEq, Repr

/-- The `defaults=` dictionary passed to `Album.objects.update_or_create`
in the JIT branch. -/
structure AlbumDefaults where
  name : String
  artist : String
  vocal_style : Option String
  release_date : Option PyDate
  cover_art_url : Option String
  spotify_url : String
deriving DecidableEq, Repr

/-- Overwrite exactly the fields listed in `defaults=` (Django
`update_or_create` on the found row); all other columns — in particular the
four JIT cache fields — keep their values. -/
def applyAlbumDefaults (a : Album) (d : AlbumDefaults) : Album :=
  { a with name := d.name, artist := d.artist, vocal_style := d.vocal_style,
           release_date := d.release_date, cover_art_url := d.cover_art_url,
           spotify_url := d.spotify_url }

/-- `Album.objects.update_or_create(spotify_album_id=album_id, defaults=d)`.
Returns the store and Django's `created` flag. -/
def album_update_or_create (db : DB) (album_id : String) (d : AlbumDefaults) :
    DB × Bool :=
  if db.albumExists album_id then
    ({ db with albums := db.albums.map fun a =>
        if a.spotify_album_id = album_id then applyAlbumDefaults a d else a },
     false)
  else
    ({ db with albums := db.albums ++ [{
        spotify_album_id := album_id, name := d.name, artist := d.artist,
        genres := [], vocal_style := d.vocal_style,
        release_date := d.release_date, cover_art_url := d.cover_art_url,
        spotify_url := d.spotify_url }] },
     true)

/-- `album.genres.set(genres)` — replace the many-to-many relation. -/
def album_set_genres (db : DB) (album_id : String) (gs : List Genre) : DB :=
  { db with albums := db.albums.map fun a =>
      if a.spotify_album_id = album_id then { a with genres := gs.map (fun g => g.name) }
      else a }

/-- Lines 243–248 of the JIT branch:

    release_date = None
    if sheets_data.get("release_date"):
        release_date = self.sheets_service.parse_release_date(
            sheets_data["release_date"], tab_year)

An uncaught `ValueError` from `parse_release_date` propagates. -/
def row_release_date (nowYear : Int) (row : RowData) : Except String (Option PyDate) :=
  match row.release_date with
  | none => .ok none
  | some v =>
    if v.truthy then parse_release_date (some v) row.tab_year nowYear
    else .ok none

/-- Whether the row's release-date value makes `parse_release_date` raise
(independent of the store's contents). -/
def row_parse_fails (nowYear : Int) (row : RowData) : Bool :=
  match row_release_date nowYear row with
  | .error _ => true
  | .ok _ => false

/-- `AlbumImporter._import_single_album(sheets_data, None, album_id)` — the
JIT branch, in source order: resolve artist, genres, vocal style; parse the
release date (may raise); `update_or_create` the album; `genres.set`.
The method runs under `@transaction.atomic`, so a raise rolls back every
store change: `.error` returns no store. -/
def import_single_album_jit (nowYear : Int) (db : DB) (row : RowData)
    (album_id : String) : Except String (DB × Bool) :=
  let ar := artist_get_or_create db row.artist row.country
  let gs := map_genres ar.2 row.genre
  let vs := map_vocal_style gs.2 row.vocal_style
  match row_release_date nowYear row with
  | .error m => .error m
  | .ok release_date =>
    let d : AlbumDefaults := {
      name := row.album, artist := ar.1.name,
      vocal_style := some vs.1.name, release_date := release_date,
      cover_art_url := some "", spotify_url := row.spotify_url }
    let uc := album_update_or_create vs.2 album_id d
    .ok (album_set_genres uc.1 album_id gs.1, uc.2)

/-! ### The Sync Orchestrator: the tab/row loop of `SyncManager.run_sync`
(lines 172–451 of `sync_manager.py`).

The loop reads the operation's status from the store at exactly two kinds of
checkpoint (`sync_op.refresh_from_db()`): once before each tab and once
after the loop.  The value observed by the k-th refresh is `cancelRead k`
(`true` means the status column read `"cancelled"`); `readIdx` counts the
refreshes performed.  Display-only writes (`stage_message`, `current_tab`,
`albums_processed`) are not tracked. -/

/-- Final status of a `SyncOperation`. -/
inductive SyncStatus where
  | pending
  | running
  | completed
  | failed
  | cancelled
deriving DecidableEq, Repr

instance {ε α : Type _} [DecidableEq ε] [DecidableEq α] :
    DecidableEq (Except ε α) := fun a b =>
  match a, b with
  | .error x, .error y => decidable_of_iff (x = y) (by simp)
  | .ok x, .ok y => decidable_of_iff (x = y) (by simp)
  | .error _, .ok _ => isFalse (by simp)
  | .ok _, .error _ => isFalse (by simp)

/-- One sorted tab presented to the loop: its name and either the rows
`fetch_albums_from_tab` returned or the exception it raised. -/
structure TabInput where
  name : String
  outcome : Except PyExc (List RowData)
deriving DecidableEq, Repr

/-- One entry of the in-memory `tab_results` list. -/
structure TabResult where
  name : String
  success : Bool
  created : Nat
  skipped : Nat
  error : Option String
deriving DecidableEq, Repr

/-- The loop's mutable state: the store plus the counters of `run_sync`. -/
structure LoopState where
  db : DB
  created_count : Nat
  updated_count : Nat
  skipped_count : Nat
  failed_count : Nat
  failed_albums : List String
  total_albums_processed : Nat
  total_albums : Option Nat
  tab_results : List TabResult
  readIdx : Nat
deriving DecidableEq, Repr

/-- The state at loop entry. -/
def initLoopState (db : DB) : LoopState :=
  { db := db, created_count := 0, updated_count := 0, skipped_count := 0,
    failed_count := 0, failed_albums := [], total_albums_processed := 0,
    total_albums := none, tab_results := [], readIdx := 0 }

/-- The body of the row loop (lines 223–291): extract the Spotify id (no id
⇒ skip), skip if the album already exists (cross-tab duplicate guard), else
import; a raising import is caught, counted failed *and* skipped.  The two
extra naturals thread the tab-local `tab_created`/`tab_skipped` counters. -/
def process_row (nowYear : Int) (acc : LoopState × Nat × Nat) (row : RowData) :
    LoopState × Nat × Nat :=
  let s := acc.1
  let tab_created := acc.2.1
  let tab_skipped := acc.2.2
  match extract_spotify_album_id row.spotify_url with
  | none =>
    ({ s with skipped_count := s.skipped_count + 1 }, tab_created, tab_skipped + 1)
  | some album_id =>
    if s.db.albumExists album_id then
      ({ s with skipped_count := s.skipped_count + 1 }, tab_created, tab_skipped + 1)
    else
      match import_single_album_jit nowYear s.db row album_id with
      | .ok (db1, created) =>
        if created then
          ({ s with db := db1, created_count := s.created_count + 1,
                    total_albums_processed := s.total_albums_processed + 1 },
           tab_created + 1, tab_skipped)
        else
          ({ s with db := db1, updated_count := s.updated_count + 1,
                    total_albums_processed := s.total_albums_processed + 1 },
           tab_created, tab_skipped)
      | .error m =>
        ({ s with failed_count := s.failed_count + 1,
                  skipped_count := s.skipped_count + 1,
                  failed_albums := s.failed_albums ++ [row.album ++ ": " ++ strTake m 50] },
         tab_created, tab_skipped)

/-- The row loop over one tab's rows. -/
def process_rows (nowYear : Int) : List RowData → LoopState × Nat × Nat →
    LoopState × Nat × Nat
  | [], acc => acc
  | row :: rest, acc => process_rows nowYear rest (process_row nowYear acc row)

/-- One iteration body of the tab loop, after the cancellation checkpoint
(the `try`/`except` of lines 191–335).  Returns the new state and whether
the loop continues (`false` only for a fault classified non-continuable). -/
def tab_step (nowYear : Int) (t : TabInput) (tabIndex : Nat) (s : LoopState) :
    LoopState × Bool :=
  match t.outcome with
  | .error e =>
    let c := classify_and_handle_error e
    ({ s with tab_results := s.tab_results ++
        [{ name := t.name, success := false, created := 0, skipped := 0,
           error := some c.2 }] },
     c.1)
  | .ok rows =>
    let s1 := if tabIndex = 1 then { s with total_albums := some rows.length } else s
    let p := process_rows nowYear rows (s1, 0, 0)
    ({ p.1 with tab_results := p.1.tab_results ++
        [{ name := t.name, success := true, created := p.2.1,
           skipped := p.2.2, error := none }] },
     true)

/-- The tab loop (lines 184–335): one cancellation checkpoint per tab
before its body; break on an observed `cancelled` status or on a
non-continuable fault. -/
def process_tabs (nowYear : Int) (cancelRead : Nat → Bool) :
    List TabInput → Nat → LoopState → LoopState
  | [], _, s => s
  | t :: rest, tabIndex, s =>
    if cancelRead s.readIdx then { s with readIdx := s.readIdx + 1 }
    else
      let s0 : LoopState := { s with readIdx := s.readIdx + 1 }
      let r := tab_step nowYear t tabIndex s0
      if r.2 then process_tabs nowYear cancelRead rest (tabIndex + 1) r.1
      else r.1

/-- A `SyncRecord` row (the write-once historical record). -/
structure SyncRecordRow where
  albums_created : Nat
  albums_updated : Nat
  albums_skipped : Nat
  total_albums_in_catalog : Nat
  success : Bool
  error_message : Option String
deriving DecidableEq, Repr

/-- What the run leaves behind: the loop state, the `SyncOperation`'s final
status/messages, and the created `SyncRecord`. -/
structure RunResult where
  final : LoopState
  status : SyncStatus
  error_message : Option String
  stage_message : String
  record : SyncRecordRow
deriving DecidableEq, Repr

/-- Lines 383–390: the `Failed tabs: ...` summary fragment. -/
def failedTabLabel (r : TabResult) : String :=
  let err := r.error.getD ""
  if strLength err > 50 then r.name ++ " (" ++ strTake err 50 ++ "...)"
  else r.name ++ " (" ++ err ++ ")"

/-- Lines 382–390: `tab_error_summary`. -/
def tabErrorSummary (failed_tabs : List TabResult) : String :=
  if failed_tabs.isEmpty then ""
  else
    let names := joinWith ", " ((failed_tabs.take 3).map failedTabLabel)
    let names := if failed_tabs.length > 3 then
        names ++ " and " ++ toString (failed_tabs.length - 3) ++ " more"
      else names
    "Failed tabs: " ++ names ++ ". "

/-- The tab loop followed by finalization (lines 184–451): run the loop,
perform the final cancellation checkpoint; if it reads `cancelled`, keep
status `cancelled` and write a `SyncRecord` with the partial counts;
otherwise mark the operation `completed` (with a warning message on partial
failure) and write the aggregated `SyncRecord`. -/
def run_sync_loop (nowYear : Int) (cancelRead : Nat → Bool) (tabs : List TabInput)
    (db0 : DB) : RunResult :=
  let s := process_tabs nowYear cancelRead tabs 1 (initLoopState db0)
  if cancelRead s.readIdx then
    { final := { s with readIdx := s.readIdx + 1 },
      status := .cancelled,
      error_message := none,
      stage_message := "Sync cancelled by user",
      record := {
        albums_created := s.created_count, albums_updated := s.updated_count,
        albums_skipped := s.skipped_count,
        total_albums_in_catalog := s.db.albums.length, success := false,
        error_message := some ("Sync cancelled by user after processing " ++
          toString s.tab_results.length ++ " tabs") } }
  else
    let successful_tabs := s.tab_results.filter (fun r => r.success)
    let failed_tabs := s.tab_results.filter (fun r => !r.success)
    let success_count := s.created_count + s.updated_count
    let is_partial_failure :=
      (decide (s.failed_count > 0) && decide (success_count > 0)) || !failed_tabs.isEmpty
    let summary := tabErrorSummary failed_tabs
    { final := { s with readIdx := s.readIdx + 1 },
      status := .completed,
      error_message := if is_partial_failure then
          some ("Warning: " ++ toString successful_tabs.length ++ "/" ++
            toString s.tab_results.length ++ " tabs processed successfully. " ++
            summary ++ toString success_count ++ " albums imported, " ++
            toString s.failed_count ++ " albums failed.")
        else none,
      stage_message := if is_partial_failure then "Sync completed with warnings"
        else "Sync complete! Processed " ++ toString tabs.length ++
          " tabs, imported " ++ toString s.created_count ++ " new albums",
      record := {
        albums_created := s.created_count, albums_updated := s.updated_count,
        albums_skipped := s.skipped_count,
        total_albums_in_catalog := s.db.albums.length,
        success := decide (s.failed_count = 0) && failed_tabs.isEmpty,
        error_message := if is_partial_failure then
            some (summary ++ "Partial failure: " ++ toString s.failed_count ++
              " albums failed, " ++ toString successful_tabs.length ++ "/" ++
              toString s.tab_results.length ++ " tabs succeeded")
          else none } }

/-! ### Derived notions used by the verified properties -/

/-- A run during which no cancellation request is ever observed. -/
def neverCancelled : Nat → Bool := fun _ => false

/-- Loop input built from `(tab name, rows)` pairs whose row extraction
succeeds (no tab-level fault). -/
def mkOkTabs (tabss : List (String × List RowData)) : List TabInput :=
  tabss.map (fun p => { name := p.1, outcome := .ok p.2 })

/-- Total number of candidate rows over the given `(name, rows)` pairs. -/
def totalRowCount (tabss : List (String × List RowData)) : Nat :=
  (tabss.map (fun p => p.2.length)).sum

/-- Whether a tab's outcome is a fault the Error Classifier aborts the run
on (`should_continue = False`). -/
def TabInput.aborts (t : TabInput) : Bool :=
  match t.outcome with
  | .error e => !(classify_and_handle_error e).1
  | .ok _ => false

/-- Number of rows carried by the tabs whose extraction succeeded. -/
def totalRowsOk (tabs : List TabInput) : Nat :=
  (tabs.map (fun t =>
    match t.outcome with
    | .ok rows => rows.length
    | .error _ => 0)).sum

/-- What actually happens when the first tab's fault is classified
non-continuable: the loop stops after recording that one failed tab (no
later tab is touched, nothing is imported), and the run finalizes as
`completed` with a partial-failure warning — the `SyncRecord` carries
`success = False`, but the `SyncOperation` status is not `failed`. -/
def abortStopsLoopProp (nowYear : Int) (name : String) (e : PyExc)
    (rest : List TabInput) (db0 : DB) : Prop :=
  let r := run_sync_loop nowYear neverCancelled
    ({ name := name, outcome := .error e } :: rest) db0
  r.status = SyncStatus.completed ∧
  r.record.success = false ∧
  r.final.tab_results =
    [{ name := name, success := false, created := 0, skipped := 0,
       error := some (classify_and_handle_error e).2 }] ∧
  r.final.db = db0 ∧
  r.final.created_count = 0 ∧
  r.final.updated_count = 0 ∧
  r.final.skipped_count = 0 ∧
  r.error_message.isSome = true

/-- Global duplicate-freedom and idempotence of the merge: after a run the
external identifiers are duplicate-free, every row was counted created or
skipped (never duplicated into `updated`), and a second run over the same
row set changes no store row and reports every row as skipped. -/
def mergeIdempotenceProp (nowYear : Int) (tabss : List (String × List RowData))
    (db0 : DB) : Prop :=
  let r1 := run_sync_loop nowYear neverCancelled (mkOkTabs tabss) db0
  let r2 := run_sync_loop nowYear neverCancelled (mkOkTabs tabss) r1.final.db
  r1.final.db.albumIds.Nodup ∧
  r1.final.updated_count = 0 ∧
  r1.final.created_count + r1.final.skipped_count = totalRowCount tabss ∧
  r2.final.db = r1.final.db ∧
  r2.final.created_count = 0 ∧
  r2.final.updated_count = 0 ∧
  r2.final.skipped_count = totalRowCount tabss

/-- Frame property of a JIT-mode `update_or_create` on an existing album:
row by row, the four JIT cache columns are untouched, rows of other albums
are untouched entirely, the updated album's `cover_art_url` is overwritten
with `""`, and Django reports `created = False`. -/
def jitUpdateFrameProp (nowYear : Int) (db : DB) (row : RowData)
    (album_id : String) : Prop :=
  ∀ db' created,
    import_single_album_jit nowYear db row album_id = .ok (db', created) →
    created = false ∧
    List.Forall₂ (fun a a' : Album =>
      a'.spotify_cover_url = a.spotify_cover_url ∧
      a'.spotify_cover_cached_at = a.spotify_cover_cached_at ∧
      a'.spotify_metadata_json = a.spotify_metadata_json ∧
      a'.spotify_metadata_cached_at = a.spotify_metadata_cached_at ∧
      (a.spotify_album_id ≠ album_id → a' = a) ∧
      (a.spotify_album_id = album_id → a'.cover_art_url = some ""))
      db.albums db'.albums

/-- Behavior of a run whose i-th pre-tab cancellation checkpoint reads
`cancelled`: the loop state is exactly that of processing only the first
`i` tabs (each of them completely — every row of an extracted tab is
counted exactly once), the final status is `cancelled`, and the
`SyncRecord` carries the partial counts with `success = False`. -/
def cancellationBoundaryProp (nowYear : Int) (cancelRead : Nat → Bool)
    (tabs : List TabInput) (db0 : DB) (i : Nat) : Prop :=
  let r := run_sync_loop nowYear cancelRead tabs db0
  let sPrefix := process_tabs nowYear cancelRead (tabs.take i) 1 (initLoopState db0)
  r.status = SyncStatus.cancelled ∧
  { r.final with readIdx := 0 } = { sPrefix with readIdx := 0 } ∧
  r.record.albums_created = sPrefix.created_count ∧
  r.record.albums_updated = sPrefix.updated_count ∧
  r.record.albums_skipped = sPrefix.skipped_count ∧
  r.record.success = false ∧
  r.final.tab_results.map (fun res => res.name) = (tabs.take i).map (fun t => t.name) ∧
  sPrefix.created_count + sPrefix.updated_count + sPrefix.skipped_count =
    totalRowsOk (tabs.take i)

/-! ### Concrete sample data for witnesses and counterexamples -/

/-- A sample candidate row. -/
def rowOpeth : RowData :=
  { artist := "Opeth", album := "Ghost Reveries",
    release_date := some (.str "August 29"), genre := "Progressive Metal",
    vocal_style := "Mixed", country := "Sweden",
    spotify_url := "https://open.spotify.com/album/1234567890123456789012",
    tab_year := some 2005 }

/-- A second sample candidate row with a different identifier. -/
def rowLeprous : RowData :=
  { artist := "Leprous", album := "Malina",
    release_date := some (.str "August 25"), genre := "Prog Metal, Art Rock",
    vocal_style := "Clean", country := "Norway",
    spotify_url := "https://open.spotify.com/album/2234567890123456789012",
    tab_year := some 2017 }

/-- Two tabs listing the same identifier (`rowOpeth` appears in both). -/
def dupTabss : List (String × List RowData) :=
  [("2005 Prog-metal", [rowOpeth]), ("2017 Prog-metal", [rowOpeth, rowLeprous])]

/-- An album row that already carries JIT-cached cover art and metadata. -/
def cachedAlbum : Album :=
  { spotify_album_id := "1234567890123456789012", name := "Old name",
    artist := "Opeth", genres := ["Progressive Metal"],
    vocal_style := some "Mixed Vocals (Clean & Harsh)",
    release_date := some ⟨2005, 8, 29⟩,
    cover_art_url := some "https://i.scdn.co/image/abc",
    spotify_url := "https://open.spotify.com/album/1234567890123456789012",
    spotify_cover_url := some "https://i.scdn.co/image/cached",
    spotify_cover_cached_at := some 7,
    spotify_metadata_json := some "cached-metadata",
    spotify_metadata_cached_at := some 9 }

/-- A store whose only album is `cachedAlbum`. -/
def dbWithCachedAlbum : DB := { DB.empty with albums := [cachedAlbum] }

/-- A cancellation-status sequence that flips to `cancelled` from the
second checkpoint on. -/
def cancelAfterOne : Nat → Bool := fun k => decide (1 ≤ k)

/-- Two extracted tabs, used to exercise the cancellation boundary. -/
def twoOkTabs : List TabInput :=
  mkOkTabs dupTabss

/-! ## Theorems

### Store bookkeeping lemmas

Entity resolution creates artist/genre/vocal-style rows but never touches
the album table; the album table is only written by `update_or_create` and
`genres.set`. -/

theorem albums_artist_get_or_create (db : DB) (n c : String) :
    (artist_get_or_create db n c).2.albums = db.albums := by
  unfold artist_get_or_create
  split <;> rfl

theorem albums_genre_get_or_create (db : DB) (n : String) :
    (genre_get_or_create db n).2.albums = db.albums := by
  unfold genre_get_or_create
  split <;> rfl

theorem albums_vocal_style_get_or_create (db : DB) (n : String) :
    (vocal_style_get_or_create db n).2.albums = db.albums := by
  unfold vocal_style_get_or_create
  split <;> rfl

theorem albums_resolve_genre_token (db : DB) (tok : String) :
    (resolve_genre_token db tok).2.albums = db.albums := by
  unfold resolve_genre_token
  split
  · rfl
  · split
    · rfl
    · exact albums_genre_get_or_create db tok

theorem albums_map_genres_tokens (toks : List String) :
    ∀ db : DB, (map_genres_tokens db toks).2.albums = db.albums := by
  induction toks with
  | nil => intro db; rfl
  | cons tok rest ih =>
    intro db
    show (map_genres_tokens (resolve_genre_token db tok).2 rest).2.albums = db.albums
    rw [ih, albums_resolve_genre_token]

theorem albums_map_genres (db : DB) (t : String) :
    (map_genres db t).2.albums = db.albums := by
  unfold map_genres
  split
  · exact albums_genre_get_or_create db "Progressive Metal"
  · dsimp only
    split
    · exact albums_genre_get_or_create db "Progressive Metal"
    · exact albums_map_genres_tokens _ db

theorem albums_map_vocal_style (db : DB) (t : String) :
    (map_vocal_style db t).2.albums = db.albums := by
  unfold map_vocal_style
  split
  · exact albums_vocal_style_get_or_create db _
  · dsimp only
    split
    · rfl
    · split
      · exact albums_vocal_style_get_or_create db _
      · split
        · exact albums_vocal_style_get_or_create db _
        · split
          · exact albums_vocal_style_get_or_create db _
          · split
            · exact albums_vocal_style_get_or_create db _
            · exact albums_vocal_style_get_or_create db _

theorem albumIds_eq_of_albums_eq {db1 db2 : DB} (h : db1.albums = db2.albums) :
    db1.albumIds = db2.albumIds := by
  unfold DB.albumIds
  rw [h]

theorem albumExists_eq_of_albums_eq {db1 db2 : DB} (h : db1.albums = db2.albums)
    (id : String) : db1.albumExists id = db2.albumExists id := by
  unfold DB.albumExists
  rw [h]

theorem albumExists_iff (db : DB) (id : String) :
    db.albumExists id = true ↔ id ∈ db.albumIds := by
  unfold DB.albumExists DB.albumIds
  rw [List.any_eq_true]
  constructor
  · rintro ⟨a, ha, hp⟩
    exact List.mem_map.mpr ⟨a, ha, by simpa using hp⟩
  · intro h
    rcases List.mem_map.mp h with ⟨a, ha, rfl⟩
    exact ⟨a, ha, by simp⟩

theorem albumIds_album_set_genres (db : DB) (id : String) (gs : List Genre) :
    (album_set_genres db id gs).albumIds = db.albumIds := by
  unfold album_set_genres DB.albumIds
  simp only [List.map_map]
  apply List.map_congr_left
  intro a _
  by_cases h : a.spotify_album_id = id <;> simp [h]

theorem album_update_or_create_ids (db : DB) (id : String) (d : AlbumDefaults) :
    (album_update_or_create db id d).1.albumIds =
      (if db.albumExists id = true then db.albumIds else db.albumIds ++ [id]) ∧
    (album_update_or_create db id d).2 = !db.albumExists id := by
  unfold album_update_or_create
  by_cases h : db.albumExists id = true
  · simp only [h, if_true]
    refine ⟨?_, rfl⟩
    show List.map _ (db.albums.map _) = db.albumIds
    unfold DB.albumIds
    simp only [List.map_map]
    apply List.map_congr_left
    intro a _
    by_cases ha : a.spotify_album_id = id <;> simp [ha, applyAlbumDefaults]
  · simp only [h, if_false, Bool.not_eq_true] at *
    simp only [h, Bool.false_eq_true, if_false]
    constructor
    · show List.map _ (db.albums ++ [_]) = db.albumIds ++ [id]
      unfold DB.albumIds
      simp
    · rfl

/-! ### Effects of one JIT import -/

theorem import_jit_error_parse {n : Int} {db : DB} {row : RowData} {id m : String}
    (h : import_single_album_jit n db row id = .error m) :
    row_parse_fails n row = true := by
  unfold row_parse_fails
  cases hrd : row_release_date n row with
  | error m2 => rfl
  | ok rd =>
    unfold import_single_album_jit at h
    rw [hrd] at h
    simp at h

theorem import_jit_ok_parse {n : Int} {db : DB} {row : RowData} {id : String}
    {p : DB × Bool} (h : import_single_album_jit n db row id = .ok p) :
    row_parse_fails n row = false := by
  unfold row_parse_fails
  cases hrd : row_release_date n row with
  | ok rd => rfl
  | error m =>
    unfold import_single_album_jit at h
    rw [hrd] at h
    simp at h

theorem import_jit_ok_ids {n : Int} {db : DB} {row : RowData} {id : String}
    {db' : DB} {c : Bool}
    (h : import_single_album_jit n db row id = .ok (db', c)) :
    db'.albumIds =
      (if db.albumExists id = true then db.albumIds else db.albumIds ++ [id]) ∧
    c = !db.albumExists id := by
  have hv : (map_vocal_style (map_genres
      (artist_get_or_create db row.artist row.country).2 row.genre).2
      row.vocal_style).2.albums = db.albums := by
    rw [albums_map_vocal_style, albums_map_genres, albums_artist_get_or_create]
  unfold import_single_album_jit at h
  cases hrd : row_release_date n row with
  | error m => rw [hrd] at h; simp at h
  | ok rd =>
    rw [hrd] at h
    dsimp only at h
    rw [Except.ok.injEq, Prod.ext_iff] at h
    obtain ⟨h1, h2⟩ := h
    dsimp only at h1 h2
    constructor
    · rw [← h1, albumIds_album_set_genres,
        (album_update_or_create_ids _ id _).1,
        albumExists_eq_of_albums_eq hv, albumIds_eq_of_albums_eq hv]
    · rw [← h2, (album_update_or_create_ids _ id _).2,
        albumExists_eq_of_albums_eq hv]

/-! ### Effects of processing one row, and of a row list -/

theorem process_row_effects (n : Int) (s : LoopState) (tc ts : Nat) (row : RowData) :
    (process_row n (s, tc, ts) row).1.readIdx = s.readIdx ∧
    (process_row n (s, tc, ts) row).1.tab_results = s.tab_results ∧
    (process_row n (s, tc, ts) row).1.total_albums = s.total_albums ∧
    (process_row n (s, tc, ts) row).1.updated_count = s.updated_count ∧
    (process_row n (s, tc, ts) row).1.created_count +
        (process_row n (s, tc, ts) row).1.skipped_count =
      s.created_count + s.skipped_count + 1 ∧
    (∀ x, x ∈ s.db.albumIds → x ∈ (process_row n (s, tc, ts) row).1.db.albumIds) ∧
    (s.db.albumIds.Nodup → (process_row n (s, tc, ts) row).1.db.albumIds.Nodup) ∧
    (∀ id, extract_spotify_album_id row.spotify_url = some id →
      id ∈ (process_row n (s, tc, ts) row).1.db.albumIds ∨
        row_parse_fails n row = true) := by
  unfold process_row
  dsimp only
  cases hex : extract_spotify_album_id row.spotify_url with
  | none =>
    dsimp only
    refine ⟨by trivial, by trivial, by trivial, by trivial, by (try dsimp only); omega,
      fun x hx => hx, fun h => h, ?_⟩
    intro id hid
    simp at hid
  | some id =>
    dsimp only
    by_cases hdup : s.db.albumExists id = true
    · simp only [hdup, if_true]
      refine ⟨by trivial, by trivial, by trivial, by trivial, by (try dsimp only); omega,
        fun x hx => hx, fun h => h, ?_⟩
      intro id2 hid2
      injection hid2 with hid2
      subst hid2
      exact Or.inl ((albumExists_iff s.db id).mp hdup)
    · rw [Bool.not_eq_true] at hdup
      simp only [hdup, Bool.false_eq_true, if_false]
      cases himp : import_single_album_jit n s.db row id with
      | ok p =>
        obtain ⟨db1, created⟩ := p
        obtain ⟨hids, hc⟩ := import_jit_ok_ids himp
        rw [hdup] at hids hc
        simp only [Bool.false_eq_true, if_false, Bool.not_false] at hids hc
        subst hc
        simp only [if_true]
        refine ⟨by trivial, by trivial, by trivial, by trivial, by (try dsimp only); omega,
          ?_, ?_, ?_⟩
        · intro x hx
          rw [hids]
          exact List.mem_append_left _ hx
        · intro hnd
          rw [hids, List.nodup_append]
          refine ⟨hnd, List.nodup_singleton id, ?_⟩
          intro a ha hamem
          rw [List.mem_singleton] at hamem
          subst hamem
          exact absurd ((albumExists_iff s.db a).mpr ha) (by simp [hdup])
        · intro id2 hid2
          injection hid2 with hid2
          subst hid2
          rw [hids]
          exact Or.inl (by simp)
      | error m =>
        refine ⟨by trivial, by trivial, by trivial, by trivial, by (try dsimp only); omega,
          fun x hx => hx, fun h => h, ?_⟩
        intro id2 _
        exact Or.inr (import_jit_error_parse himp)

theorem process_rows_effects (n : Int) (rows : List RowData) :
    ∀ (s : LoopState) (tc ts : Nat),
    (process_rows n rows (s, tc, ts)).1.readIdx = s.readIdx ∧
    (process_rows n rows (s, tc, ts)).1.tab_results = s.tab_results ∧
    (process_rows n rows (s, tc, ts)).1.total_albums = s.total_albums ∧
    (process_rows n rows (s, tc, ts)).1.updated_count = s.updated_count ∧
    (process_rows n rows (s, tc, ts)).1.created_count +
        (process_rows n rows (s, tc, ts)).1.skipped_count =
      s.created_count + s.skipped_count + rows.length ∧
    (∀ x, x ∈ s.db.albumIds → x ∈ (process_rows n rows (s, tc, ts)).1.db.albumIds) ∧
    (s.db.albumIds.Nodup → (process_rows n rows (s, tc, ts)).1.db.albumIds.Nodup) ∧
    (∀ row ∈ rows, ∀ id, extract_spotify_album_id row.spotify_url = some id →
      id ∈ (process_rows n rows (s, tc, ts)).1.db.albumIds ∨
        row_parse_fails n row = true) := by
  induction rows with
  | nil =>
    intro s tc ts
    refine ⟨rfl, rfl, rfl, rfl, by simp [process_rows], fun x hx => hx, fun h => h, ?_⟩
    intro row hrow
    cases hrow
  | cons row rest ih =>
    intro s tc ts
    obtain ⟨hri, htr, hta, hu, hcs, hmem, hnd, hcov⟩ :=
      process_row_effects n s tc ts row
    have hstep : process_rows n (row :: rest) (s, tc, ts) =
        process_rows n rest ((process_row n (s, tc, ts) row).1,
          (process_row n (s, tc, ts) row).2.1,
          (process_row n (s, tc, ts) row).2.2) := rfl
    obtain ⟨iri, itr, ita, iu, ics, imem, ind, icov⟩ :=
      ih (process_row n (s, tc, ts) row).1
        (process_row n (s, tc, ts) row).2.1
        (process_row n (s, tc, ts) row).2.2
    rw [hstep]
    refine ⟨by rw [iri, hri], by rw [itr, htr], by rw [ita, hta],
      by rw [iu, hu], by rw [ics, hcs]; simp; omega,
      fun x hx => imem x (hmem x hx), fun h => ind (hnd h), ?_⟩
    intro r hr id hid
    rcases List.mem_cons.mp hr with hr | hr
    · subst hr
      rcases hcov id hid with hin | hfail
      · exact Or.inl (imem id hin)
      · exact Or.inr hfail
    · exact icov r hr id hid

theorem process_rows_all_skip (n : Int) (rows : List RowData) :
    ∀ (s : LoopState) (tc ts : Nat),
      (∀ row ∈ rows, ∀ id, extract_spotify_album_id row.spotify_url = some id →
        s.db.albumExists id = true ∨ row_parse_fails n row = true) →
      (process_rows n rows (s, tc, ts)).1.db = s.db ∧
      (process_rows n rows (s, tc, ts)).1.created_count = s.created_count ∧
      (process_rows n rows (s, tc, ts)).1.updated_count = s.updated_count ∧
      (process_rows n rows (s, tc, ts)).1.skipped_count =
        s.skipped_count + rows.length := by
  induction rows with
  | nil =>
    intro s tc ts _
    exact ⟨rfl, rfl, rfl, by simp [process_rows]⟩
  | cons row rest ih =>
    intro s tc ts hskip
    have hrow : process_row n (s, tc, ts) row =
        ({ s with skipped_count := s.skipped_count + 1 }, tc, ts + 1) ∨
        ∃ m, process_row n (s, tc, ts) row =
          ({ s with failed_count := s.failed_count + 1,
                    skipped_count := s.skipped_count + 1,
                    failed_albums := s.failed_albums ++
                      [row.album ++ ": " ++ strTake m 50] }, tc, ts) := by
      unfold process_row
      dsimp only
      cases hex : extract_spotify_album_id row.spotify_url with
      | none => exact Or.inl (by trivial)
      | some id =>
        dsimp only
        rcases hskip row (by simp) id hex with hdup | hfail
        · simp only [hdup, if_true]
          exact Or.inl (by trivial)
        · by_cases hdup2 : s.db.albumExists id = true
          · simp only [hdup2, if_true]
            exact Or.inl (by trivial)
          · rw [Bool.not_eq_true] at hdup2
            simp only [hdup2, Bool.false_eq_true, if_false]
            cases himp : import_single_album_jit n s.db row id with
            | ok p =>
              have hok := import_jit_ok_parse himp
              rw [hok] at hfail
              cases hfail
            | error m => exact Or.inr ⟨m, by trivial⟩
    have hnext : ∀ (s1 : LoopState) (tc1 ts1 : Nat), s1.db = s.db →
        s1.created_count = s.created_count → s1.updated_count = s.updated_count →
        s1.skipped_count = s.skipped_count + 1 →
        process_rows n (row :: rest) (s, tc, ts) =
          process_rows n rest (s1, tc1, ts1) →
        (process_rows n (row :: rest) (s, tc, ts)).1.db = s.db ∧
        (process_rows n (row :: rest) (s, tc, ts)).1.created_count = s.created_count ∧
        (process_rows n (row :: rest) (s, tc, ts)).1.updated_count = s.updated_count ∧
        (process_rows n (row :: rest) (s, tc, ts)).1.skipped_count =
          s.skipped_count + (row :: rest).length := by
      intro s1 tc1 ts1 hdb hc hu hsk hstep
      have harg : ∀ r ∈ rest, ∀ id, extract_spotify_album_id r.spotify_url = some id →
          s1.db.albumExists id = true ∨ row_parse_fails n r = true := by
        rw [hdb]
        intro r hr
        exact hskip r (List.mem_cons_of_mem _ hr)
      obtain ⟨idb, ic, iu, isk⟩ := ih s1 tc1 ts1 harg
      rw [hstep]
      refine ⟨by rw [idb, hdb], by rw [ic, hc], by rw [iu, hu], ?_⟩
      rw [isk, hsk]
      simp
      omega
    rcases hrow with hrow | ⟨m, hrow⟩
    · refine hnext { s with skipped_count := s.skipped_count + 1 } tc (ts + 1)
        rfl rfl rfl rfl ?_
      show process_rows n rest (process_row n (s, tc, ts) row) = _
      rw [hrow]
    · refine hnext
        { s with
          failed_count := s.failed_count + 1,
          skipped_count := s.skipped_count + 1,
          failed_albums := s.failed_albums ++ [row.album ++ ": " ++ strTake m 50] }
        tc ts rfl rfl rfl rfl ?_
      show process_rows n rest (process_row n (s, tc, ts) row) = _
      rw [hrow]

/-! ### Effects of one tab-loop iteration, and of the tab loop -/

theorem tab_step_effects (n : Int) (t : TabInput) (ti : Nat) (s : LoopState) :
    (tab_step n t ti s).1.readIdx = s.readIdx ∧
    (∃ res : TabResult, (tab_step n t ti s).1.tab_results = s.tab_results ++ [res] ∧
      res.name = t.name) ∧
    (tab_step n t ti s).1.updated_count = s.updated_count ∧
    (tab_step n t ti s).1.created_count + (tab_step n t ti s).1.skipped_count =
      s.created_count + s.skipped_count + totalRowsOk [t] ∧
    (∀ x, x ∈ s.db.albumIds → x ∈ (tab_step n t ti s).1.db.albumIds) ∧
    (s.db.albumIds.Nodup → (tab_step n t ti s).1.db.albumIds.Nodup) ∧
    (t.aborts = false → (tab_step n t ti s).2 = true) ∧
    (∀ rows, t.outcome = .ok rows → ∀ row ∈ rows, ∀ id,
      extract_spotify_album_id row.spotify_url = some id →
      id ∈ (tab_step n t ti s).1.db.albumIds ∨ row_parse_fails n row = true) := by
  unfold tab_step
  cases ht : t.outcome with
  | error e =>
    dsimp only
    refine ⟨rfl, ⟨_, rfl, rfl⟩, rfl, ?_, fun x hx => hx, fun h => h, ?_, ?_⟩
    · show s.created_count + s.skipped_count = _
      simp [totalRowsOk, ht]
    · intro hab
      unfold TabInput.aborts at hab
      rw [ht] at hab
      simpa using hab
    · intro rows hrows
      exact absurd hrows (by simp)
  | ok rows =>
    dsimp only
    by_cases hti : ti = 1
    · simp only [hti, if_true]
      obtain ⟨pri, ptr, pta, pu, pcs, pmem, pnd, pcov⟩ :=
        process_rows_effects n rows { s with total_albums := some rows.length } 0 0
      refine ⟨by rw [pri], ⟨_, by rw [ptr], by trivial⟩,
        by rw [pu], ?_, ?_, ?_, fun _ => trivial, ?_⟩
      · rw [pcs]
        simp [totalRowsOk, ht]
      · intro x hx
        exact pmem x hx
      · intro h
        exact pnd h
      · intro rows2 hrows2 row hrow id hid
        injection hrows2 with hrows2
        subst hrows2
        exact pcov row hrow id hid
    · simp only [hti, if_false]
      obtain ⟨pri, ptr, pta, pu, pcs, pmem, pnd, pcov⟩ :=
        process_rows_effects n rows s 0 0
      refine ⟨by rw [pri], ⟨_, by rw [ptr], by trivial⟩,
        by rw [pu], ?_, ?_, ?_, fun _ => trivial, ?_⟩
      · rw [pcs]
        simp [totalRowsOk, ht]
      · intro x hx
        exact pmem x hx
      · intro h
        exact pnd h
      · intro rows2 hrows2 row hrow id hid
        injection hrows2 with hrows2
        subst hrows2
        exact pcov row hrow id hid

theorem process_tabs_run (n : Int) (cr : Nat → Bool) :
    ∀ (tabs : List TabInput) (ti : Nat) (s : LoopState),
      (∀ j, s.readIdx ≤ j → j < s.readIdx + tabs.length → cr j = false) →
      (∀ t ∈ tabs, t.aborts = false) →
      (process_tabs n cr tabs ti s).readIdx = s.readIdx + tabs.length ∧
      (process_tabs n cr tabs ti s).tab_results.map (fun r => r.name) =
        s.tab_results.map (fun r => r.name) ++ tabs.map (fun t => t.name) ∧
      (process_tabs n cr tabs ti s).updated_count = s.updated_count ∧
      (process_tabs n cr tabs ti s).created_count +
          (process_tabs n cr tabs ti s).skipped_count =
        s.created_count + s.skipped_count + totalRowsOk tabs ∧
      (∀ x, x ∈ s.db.albumIds → x ∈ (process_tabs n cr tabs ti s).db.albumIds) ∧
      (s.db.albumIds.Nodup → (process_tabs n cr tabs ti s).db.albumIds.Nodup) ∧
      (∀ t ∈ tabs, ∀ rows, t.outcome = .ok rows → ∀ row ∈ rows, ∀ id,
        extract_spotify_album_id row.spotify_url = some id →
        id ∈ (process_tabs n cr tabs ti s).db.albumIds ∨
          row_parse_fails n row = true) := by
  intro tabs
  induction tabs with
  | nil =>
    intro ti s _ _
    refine ⟨by simp [process_tabs], by simp [process_tabs], rfl,
      by simp [process_tabs, totalRowsOk], fun x hx => hx, fun h => h, ?_⟩
    intro t h
    cases h
  | cons t rest ih =>
    intro ti s hreads haborts
    have hcr : cr s.readIdx = false :=
      hreads s.readIdx (Nat.le_refl _) (by simp)
    have habt : t.aborts = false := haborts t (by simp)
    obtain ⟨qri, ⟨res, qtr, qname⟩, qu, qcs, qmem, qnd, qcont, qcov⟩ :=
      tab_step_effects n t ti { s with readIdx := s.readIdx + 1 }
    have hstep : process_tabs n cr (t :: rest) ti s =
        process_tabs n cr rest (ti + 1)
          (tab_step n t ti { s with readIdx := s.readIdx + 1 }).1 := by
      show (if cr s.readIdx then _ else _) = _
      rw [hcr]
      dsimp only
      rw [qcont habt]
      simp
    obtain ⟨iri, itr, iu, ics, imem, ind, icov⟩ :=
      ih (ti + 1) (tab_step n t ti { s with readIdx := s.readIdx + 1 }).1
        (by
          intro j hj1 hj2
          rw [qri] at hj1 hj2
          exact hreads j (by simp at hj1 ⊢; omega) (by simp at hj2 ⊢; omega))
        (fun t2 h2 => haborts t2 (List.mem_cons_of_mem _ h2))
    rw [hstep]
    refine ⟨?_, ?_, ?_, ?_, ?_, ?_, ?_⟩
    · rw [iri, qri]
      simp
      omega
    · rw [itr, qtr]
      simp [qname]
    · rw [iu, qu]
    · rw [ics, qcs]
      simp [totalRowsOk]
      omega
    · intro x hx
      exact imem x (qmem x hx)
    · intro h
      exact ind (qnd h)
    · intro t2 ht2 rows hrows row hrow id hid
      rcases List.mem_cons.mp ht2 with h2 | h2
      · subst h2
        rcases qcov rows hrows row hrow id hid with hin | hfail
        · exact Or.inl (imem id hin)
        · exact Or.inr hfail
      · exact icov t2 h2 rows hrows row hrow id hid

theorem process_tabs_break (n : Int) (cr : Nat → Bool) :
    ∀ (i : Nat) (tabs : List TabInput) (ti : Nat) (s : LoopState),
      i < tabs.length →
      (∀ j, s.readIdx ≤ j → j < s.readIdx + i → cr j = false) →
      cr (s.readIdx + i) = true →
      (∀ t ∈ tabs.take i, t.aborts = false) →
      process_tabs n cr tabs ti s =
        { process_tabs n cr (tabs.take i) ti s with
          readIdx := (process_tabs n cr (tabs.take i) ti s).readIdx + 1 } := by
  intro i
  induction i with
  | zero =>
    intro tabs ti s hlen _ hread _
    cases tabs with
    | nil => simp at hlen
    | cons t rest =>
      show (if cr s.readIdx then _ else _) = _
      rw [Nat.add_zero] at hread
      rw [hread]
      simp [process_tabs]
  | succ i ihi =>
    intro tabs ti s hlen hreads hread haborts
    cases tabs with
    | nil => simp at hlen
    | cons t rest =>
      have hcr : cr s.readIdx = false :=
        hreads s.readIdx (Nat.le_refl _) (by omega)
      have habt : t.aborts = false := haborts t (by simp)
      obtain ⟨qri, _, _, _, _, _, qcont, _⟩ :=
        tab_step_effects n t ti { s with readIdx := s.readIdx + 1 }
      have hstep : process_tabs n cr (t :: rest) ti s =
          process_tabs n cr rest (ti + 1)
            (tab_step n t ti { s with readIdx := s.readIdx + 1 }).1 := by
        show (if cr s.readIdx then _ else _) = _
        rw [hcr]
        dsimp only
        rw [qcont habt]
        simp
      have hstep2 : process_tabs n cr ((t :: rest).take (i + 1)) ti s =
          process_tabs n cr (rest.take i) (ti + 1)
            (tab_step n t ti { s with readIdx := s.readIdx + 1 }).1 := by
        show (if cr s.readIdx then _ else _) = _
        rw [hcr]
        dsimp only
        rw [qcont habt]
        simp
      rw [hstep, hstep2]
      apply ihi rest (ti + 1) _ (by simpa using hlen)
      · intro j hj1 hj2
        rw [qri] at hj1 hj2
        exact hreads j (by simp at hj1 ⊢; omega) (by simp at hj2 ⊢; omega)
      · rw [qri]
        show cr (s.readIdx + 1 + i) = true
        have : s.readIdx + 1 + i = s.readIdx + (i + 1) := by omega
        rw [this]
        exact hread
      · intro t2 h2
        exact haborts t2 (by simp [List.mem_cons_of_mem, h2])

theorem process_tabs_all_skip (n : Int) (cr : Nat → Bool) :
    ∀ (tabs : List TabInput) (ti : Nat) (s : LoopState),
      (∀ j, cr j = false) →
      (∀ t ∈ tabs, ∃ rows, t.outcome = .ok rows ∧
        ∀ row ∈ rows, ∀ id, extract_spotify_album_id row.spotify_url = some id →
          s.db.albumExists id = true ∨ row_parse_fails n row = true) →
      (process_tabs n cr tabs ti s).db = s.db ∧
      (process_tabs n cr tabs ti s).created_count = s.created_count ∧
      (process_tabs n cr tabs ti s).updated_count = s.updated_count ∧
      (process_tabs n cr tabs ti s).skipped_count =
        s.skipped_count + totalRowsOk tabs := by
  intro tabs
  induction tabs with
  | nil =>
    intro ti s _ _
    exact ⟨rfl, rfl, rfl, by simp [process_tabs, totalRowsOk]⟩
  | cons t rest ih =>
    intro ti s hcr hskip
    obtain ⟨rows, ht, hrows⟩ := hskip t (by simp)
    have hstep : process_tabs n cr (t :: rest) ti s =
        process_tabs n cr rest (ti + 1)
          (tab_step n t ti { s with readIdx := s.readIdx + 1 }).1 := by
      show (if cr s.readIdx then _ else _) = _
      rw [hcr s.readIdx]
      dsimp only
      obtain ⟨_, _, _, _, _, _, qcont, _⟩ :=
        tab_step_effects n t ti { s with readIdx := s.readIdx + 1 }
      rw [qcont (by unfold TabInput.aborts; rw [ht])]
      simp
    have hbody : ∀ (s1 : LoopState), s1.db = s.db →
        s1.created_count = s.created_count → s1.updated_count = s.updated_count →
        s1.skipped_count = s.skipped_count →
        (tab_step n t ti s1).1.db = s.db ∧
        (tab_step n t ti s1).1.created_count = s.created_count ∧
        (tab_step n t ti s1).1.updated_count = s.updated_count ∧
        (tab_step n t ti s1).1.skipped_count = s.skipped_count + rows.length := by
      intro s1 hdb hc hu hsk
      unfold tab_step
      rw [ht]
      dsimp only
      by_cases hti : ti = 1
      · simp only [hti, if_true]
        have hdb2 : ({ s1 with total_albums := some rows.length } : LoopState).db = s.db := hdb
        have hsk2 : ({ s1 with total_albums := some rows.length } : LoopState).skipped_count =
          s.skipped_count := hsk
        obtain ⟨adb, ac, au, ask⟩ := process_rows_all_skip n rows
          { s1 with total_albums := some rows.length } 0 0
          (by intro r hr id hid; rw [hdb2]; exact hrows r hr id hid)
        exact ⟨by rw [adb, hdb2], by rw [ac]; exact hc, by rw [au]; exact hu,
          by rw [ask, hsk2]⟩
      · simp only [hti, if_false]
        obtain ⟨adb, ac, au, ask⟩ := process_rows_all_skip n rows s1 0 0
          (by intro r hr id hid; rw [hdb]; exact hrows r hr id hid)
        exact ⟨by rw [adb]; exact hdb, by rw [ac]; exact hc, by rw [au]; exact hu,
          by rw [ask, hsk]⟩
    obtain ⟨bdb, bc, bu, bsk⟩ :=
      hbody { s with readIdx := s.readIdx + 1 } rfl rfl rfl rfl
    obtain ⟨idb, ic, iu, isk⟩ :=
      ih (ti + 1) (tab_step n t ti { s with readIdx := s.readIdx + 1 }).1 hcr
        (by
          intro t2 h2
          obtain ⟨rows2, ht2, hrows2⟩ := hskip t2 (List.mem_cons_of_mem _ h2)
          refine ⟨rows2, ht2, ?_⟩
          rw [bdb]
          exact hrows2)
    rw [hstep]
    refine ⟨by rw [idb, bdb], by rw [ic, bc], by rw [iu, bu], ?_⟩
    rw [isk, bsk]
    simp [totalRowsOk, ht]
    omega

/-! ### Stability of the chronological tab sort -/

theorem bnot_isSome {α : Type _} (o : Option α) : (!o.isSome) = o.isNone := by
  cases o <;> rfl

theorem filter_orderedInsert_key {α β : Type _} [LinearOrder β] (key : α → β)
    (k : β) (a : α) (l : List α) :
    (List.orderedInsert (fun x y => key x ≤ key y) a l).filter
        (fun x => decide (key x = k)) =
      if key a = k then a :: l.filter (fun x => decide (key x = k))
      else l.filter (fun x => decide (key x = k)) := by
  induction l with
  | nil =>
    by_cases hk : key a = k <;> simp [hk]
  | cons b t ih =>
    show List.filter (fun x => decide (key x = k))
        (if key a ≤ key b then a :: b :: t
         else b :: List.orderedInsert (fun x y => key x ≤ key y) a t) = _
    by_cases hab : key a ≤ key b
    · rw [if_pos hab]
      by_cases hk : key a = k <;> simp [hk]
    · rw [if_neg hab]
      have hba : key b < key a := lt_of_not_le hab
      by_cases hk : key a = k
      · have hbk : ¬ key b = k := by
          intro hc
          rw [hk] at hba
          rw [hc] at hba
          exact lt_irrefl k hba
        simp [hk, hbk, ih]
      · by_cases hbk : key b = k <;> simp [hk, hbk, ih]

theorem filter_key_insertionSort {α β : Type _} [LinearOrder β] (key : α → β)
    (k : β) (l : List α) :
    (l.insertionSort (fun x y => key x ≤ key y)).filter
        (fun x => decide (key x = k)) =
      l.filter (fun x => decide (key x = k)) := by
  induction l with
  | nil => rfl
  | cons a t ih =>
    show (List.orderedInsert _ a (t.insertionSort _)).filter _ = _
    rw [filter_orderedInsert_key]
    by_cases hk : key a = k <;> simp [hk, ih]

/-! ### Shape of the extracted Spotify identifier -/

theorem idCandidate_some {l t : List Char} (h : idCandidate l = some t) :
    t.length = 22 ∧ t.all isAlnumAscii = true ∧
      ∃ post, l = spotifyMarker ++ t ++ post := by
  unfold idCandidate at h
  split at h
  case isTrue hp =>
    dsimp only at h
    split at h
    case isTrue hg =>
      injection h with h
      subst h
      rw [Bool.and_eq_true] at hg
      obtain ⟨h1, h2⟩ := hg
      refine ⟨by simpa using h1, h2, ?_⟩
      obtain ⟨suffix, hsuf⟩ := List.isPrefixOf_iff_prefix.mp hp
      refine ⟨(l.drop spotifyMarker.length).drop 22, ?_⟩
      have hdrop : l.drop spotifyMarker.length = suffix := by
        rw [← hsuf]
        exact List.drop_left spotifyMarker suffix
      calc l = spotifyMarker ++ suffix := hsuf.symm
        _ = spotifyMarker ++ (suffix.take 22 ++ suffix.drop 22) := by
            rw [List.take_append_drop]
        _ = spotifyMarker ++ ((l.drop spotifyMarker.length).take 22 ++
              (l.drop spotifyMarker.length).drop 22) := by rw [hdrop]
        _ = _ := by rw [List.append_assoc]
    case isFalse => exact Option.noConfusion h
  case isFalse => exact Option.noConfusion h

theorem searchAlbumId_spec (l : List Char) :
    searchAlbumId l = none ∨
      ∃ t, searchAlbumId l = some t ∧ t.length = 22 ∧ t.all isAlnumAscii = true ∧
        ∃ pre post, l = pre ++ spotifyMarker ++ t ++ post := by
  induction l with
  | nil => exact Or.inl rfl
  | cons c rest ih =>
    cases hc : idCandidate (c :: rest) with
    | some t =>
      obtain ⟨h1, h2, post, h3⟩ := idCandidate_some hc
      exact Or.inr ⟨t, by simp [searchAlbumId, hc], h1, h2, [], post, by simpa using h3⟩
    | none =>
      rcases ih with hnone | ⟨t, hsome, h1, h2, pre, post, h3⟩
      · exact Or.inl (by simp [searchAlbumId, hc, hnone])
      · exact Or.inr ⟨t, by simp [searchAlbumId, hc, hsome], h1, h2, c :: pre, post,
          by simp [h3]⟩

/-! ### The claims -/

/-- C2 (code_bug evidence): `classify_and_handle_error` on a request
timeout.  Because `requests.exceptions.Timeout` is an `OSError` subclass,
the earlier `isinstance(error, OSError)` branch captures it and the sync is
aborted with the file-I/O message — the dedicated timeout branch below it
is unreachable, contradicting the classifier's stated policy (and its own
"Recoverable errors" comment) that a timeout skips the tab and continues. -/
theorem C2_timeout_classified_fatal :
    classify_and_handle_error (PyExc.requestsTimeout "read timed out") =
      (false, "File I/O error: Cannot read Excel file. read timed out") ∧
    (classify_and_handle_error (PyExc.requestsTimeout "read timed out")).1 ≠ true := by
  exact ⟨rfl, by decide⟩

/-- C5 (code_bug evidence): `parse_release_date` raises `ValueError` for a
structured date of February 29 combined with a differing non-leap tab year:
`date.replace(year=2025)` on 2024-02-29 is invalid, so the method does not
"never raise".  (All the claim's positive examples do hold, including that
the same Feb-29 cell parses fine as free text.) -/
theorem C5_parse_release_date_raises_on_leap_day :
    parse_release_date (some (.dt ⟨2024, 2, 29⟩)) (some 2025) 2030 =
      .error "day is out of range for month" ∧
    parse_release_date (some (.str "January 15")) (some 2025) 2030 =
      .ok (some ⟨2025, 1, 15⟩) ∧
    parse_release_date (some (.str "January")) (some 2025) 2030 =
      .ok (some ⟨2025, 1, 1⟩) ∧
    parse_release_date (some (.str "not a date")) (some 2025) 2030 = .ok none := by
  exact ⟨rfl, rfl, rfl, rfl⟩

/-- C6 (code_bug evidence): `_find_header_row` scans `range(1, 20)`, i.e.
rows 1..19 only, despite the "Check first 20 rows" comment and the spec's
20-row window: a sheet whose `Artist` header sits in row 20 raises
`ValueError` instead of returning 20, while row 19 is still found. -/
theorem C6_find_header_row_misses_row_20 :
    find_header_row (List.replicate 19 (some "x") ++ [some "Artist"]) =
      .error "Could not find header row with 'Artist' column" ∧
    find_header_row (List.replicate 18 (some "x") ++ [some "Artist"]) = .ok 19 ∧
    find_header_row [none, none, some "Artist"] = .ok 3 := by
  exact ⟨rfl, rfl, rfl⟩

/-- C7: `sort_tabs_chronologically` returns a reordering of its input in
which dated tabs are sorted by ascending year, all dated tabs precede all
undated tabs, and both the tabs of any fixed year and the undated tabs keep
their relative input order (stability). -/
theorem C7_sort_tabs_chronologically_stable (tabs : List TabMetadata) :
    (sort_tabs_chronologically tabs).Perm tabs ∧
    (sort_tabs_chronologically tabs).Pairwise
      (fun a b => a.year.isSome = true → b.year.isSome = true →
        tabYearKey a ≤ tabYearKey b) ∧
    (sort_tabs_chronologically tabs).Pairwise
      (fun a b => a.year = none → b.year = none) ∧
    (∀ y : Int,
      (sort_tabs_chronologically tabs).filter (fun t => decide (t.year = some y)) =
        tabs.filter (fun t => decide (t.year = some y))) ∧
    (sort_tabs_chronologically tabs).filter (fun t => t.year.isNone) =
      tabs.filter (fun t => t.year.isNone) := by
  unfold sort_tabs_chronologically
  dsimp only
  haveI htot : IsTotal TabMetadata (fun a b => tabYearKey a ≤ tabYearKey b) :=
    ⟨fun a b => le_total _ _⟩
  haveI htrans : IsTrans TabMetadata (fun a b => tabYearKey a ≤ tabYearKey b) :=
    ⟨fun _ _ _ hab hbc => le_trans hab hbc⟩
  have hSperm := List.perm_insertionSort (fun a b => tabYearKey a ≤ tabYearKey b)
    (tabs.filter (fun t => t.year.isSome))
  have hSmem : ∀ x ∈ (tabs.filter (fun t => t.year.isSome)).insertionSort
      (fun a b => tabYearKey a ≤ tabYearKey b), x.year.isSome = true := by
    intro x hx
    exact (List.mem_filter.mp (hSperm.mem_iff.mp hx)).2
  have hUmem : ∀ x ∈ tabs.filter (fun t => t.year.isNone), x.year = none := by
    intro x hx
    have := (List.mem_filter.mp hx).2
    rwa [Option.isNone_iff_eq_none] at this
  refine ⟨?_, ?_, ?_, ?_, ?_⟩
  · refine (hSperm.append_right _).trans ?_
    have := List.filter_append_perm (fun t => t.year.isSome) tabs
    simpa [bnot_isSome] using this
  · rw [List.pairwise_append]
    refine ⟨?_, ?_, ?_⟩
    · exact (List.sorted_insertionSort _ _).imp (fun hab _ _ => hab)
    · apply List.pairwise_of_forall_mem_list
      intro a ha b hb h1 _
      rw [hUmem a ha] at h1
      cases h1
    · intro a _ b hb h1 h2
      rw [hUmem b hb] at h2
      cases h2
  · rw [List.pairwise_append]
    refine ⟨?_, ?_, ?_⟩
    · apply List.pairwise_of_forall_mem_list
      intro a ha b _ h1
      have h2 := hSmem a ha
      rw [h1] at h2
      simp at h2
    · apply List.pairwise_of_forall_mem_list
      intro a _ b hb _
      exact hUmem b hb
    · intro a _ b hb _
      exact hUmem b hb
  · intro y
    rw [List.filter_append]
    have hU : (tabs.filter (fun t => t.year.isNone)).filter
        (fun t => decide (t.year = some y)) = [] := by
      rw [List.filter_eq_nil_iff]
      intro a ha
      rw [hUmem a ha]
      simp
    have hS : ((tabs.filter (fun t => t.year.isSome)).insertionSort
          (fun a b => tabYearKey a ≤ tabYearKey b)).filter
        (fun t => decide (t.year = some y)) =
        tabs.filter (fun t => decide (t.year = some y)) := by
      have e1 : ((tabs.filter (fun t => t.year.isSome)).insertionSort
            (fun a b => tabYearKey a ≤ tabYearKey b)).filter
          (fun t => decide (t.year = some y)) =
          ((tabs.filter (fun t => t.year.isSome)).insertionSort
            (fun a b => tabYearKey a ≤ tabYearKey b)).filter
          (fun t => decide (tabYearKey t = y)) := by
        apply List.filter_congr
        intro x hx
        have hxs := hSmem x hx
        cases hx2 : x.year with
        | none => rw [hx2] at hxs; cases hxs
        | some z => simp [tabYearKey, hx2]
      have e2 := filter_key_insertionSort tabYearKey y
        (tabs.filter (fun t => t.year.isSome))
      have e3 : (tabs.filter (fun t => t.year.isSome)).filter
          (fun t => decide (tabYearKey t = y)) =
          (tabs.filter (fun t => t.year.isSome)).filter
          (fun t => decide (t.year = some y)) := by
        apply List.filter_congr
        intro x hx
        have hxs := (List.mem_filter.mp hx).2
        cases hx2 : x.year with
        | none => rw [hx2] at hxs; cases hxs
        | some z => simp [tabYearKey, hx2]
      have e4 : (tabs.filter (fun t => t.year.isSome)).filter
          (fun t => decide (t.year = some y)) =
          tabs.filter (fun t => decide (t.year = some y)) := by
        rw [List.filter_filter]
        apply List.filter_congr
        intro x _
        cases hx2 : x.year <;> simp [hx2]
      rw [e1, e2, e3, e4]
    rw [hU, hS, List.append_nil]
  · rw [List.filter_append]
    have hS : ((tabs.filter (fun t => t.year.isSome)).insertionSort
          (fun a b => tabYearKey a ≤ tabYearKey b)).filter
        (fun t => t.year.isNone) = [] := by
      rw [List.filter_eq_nil_iff]
      intro a ha
      have h2 := hSmem a ha
      intro hc
      rw [Option.isNone_iff_eq_none] at hc
      rw [hc] at h2
      simp at h2
    have hU : (tabs.filter (fun t => t.year.isNone)).filter
        (fun t => t.year.isNone) = tabs.filter (fun t => t.year.isNone) := by
      rw [List.filter_filter]
      apply List.filter_congr
      intro x _
      cases hx2 : x.year <;> simp [hx2]
    rw [hS, hU, List.nil_append]

/-- C10: on every input string `extract_spotify_album_id` returns either
`none` (in particular on the empty string) or a string of exactly 22 ASCII
alphanumeric characters that occurs in the input immediately after the
literal `open.spotify.com/album/`. -/
theorem C10_extract_spotify_album_id_shape (s : String) :
    extract_spotify_album_id "" = none ∧
    (extract_spotify_album_id s = none ∨
      ∃ t : String, extract_spotify_album_id s = some t ∧ strLength t = 22 ∧
        t.toList.all isAlnumAscii = true ∧
        ∃ pre post, s.toList = pre ++ spotifyMarker ++ t.toList ++ post) := by
  constructor
  · rfl
  · by_cases hs : s = ""
    · exact Or.inl (by simp [extract_spotify_album_id, hs])
    · unfold extract_spotify_album_id
      rw [if_neg hs]
      rcases searchAlbumId_spec s.toList with hnone | ⟨t, hsome, h1, h2, pre, post, h3⟩
      · exact Or.inl (by rw [hnone]; rfl)
      · refine Or.inr ⟨t.asString, by rw [hsome]; rfl, ?_, ?_, pre, post, ?_⟩
        · show (t.asString).toList.length = 22
          have ht : (t.asString).toList = t := rfl
          rw [ht]
          exact h1
        · have ht : (t.asString).toList = t := rfl
          rw [ht]
          exact h2
        · have ht : (t.asString).toList = t := rfl
          rw [ht]
          exact h3

/-- C1 (counterexample): a run whose only tab raises a fault classified as
non-continuable — before any tab completed — finishes with `SyncOperation`
status `completed`, not `failed`: after the `break`, `run_sync` falls
through to the completion path unconditionally. -/
theorem C1_counterexample_abort_completes :
    (run_sync_loop 2030 neverCancelled
      [{ name := "2025 Prog-metal",
         outcome := .error (.requestsConnectionError "network down") }]
      DB.empty).status = SyncStatus.completed ∧
    SyncStatus.completed ≠ SyncStatus.failed := by
  exact ⟨rfl, by decide⟩

/-- C1 (amended): when the Error Classifier returns abort for the first
tab's fault, the per-tab loop does stop — only that tab is recorded,
nothing is imported — but the run then finishes with status `completed`
carrying a warning message; only the `SyncRecord` carries
`success = false`.  Status `failed` is not produced by this path. -/
theorem C1_abort_stops_loop_but_completes (nowYear : Int) (name : String)
    (e : PyExc) (rest : List TabInput) (db0 : DB)
    (habort : (classify_and_handle_error e).1 = false) :
    abortStopsLoopProp nowYear name e rest db0 := by
  have hstep : process_tabs nowYear neverCancelled
      ({ name := name, outcome := .error e } :: rest) 1 (initLoopState db0) =
      { initLoopState db0 with
        readIdx := 1,
        tab_results := [{ name := name, success := false, created := 0,
                          skipped := 0,
                          error := some (classify_and_handle_error e).2 }] } := by
    show (if neverCancelled (initLoopState db0).readIdx then _ else _) = _
    rw [show neverCancelled (initLoopState db0).readIdx = false from rfl]
    dsimp only
    show (if (classify_and_handle_error e).1 = true then _ else _) = _
    rw [habort]
    simp only [Bool.false_eq_true, if_false]
    unfold tab_step
    dsimp only
    simp [initLoopState]
  unfold abortStopsLoopProp
  unfold run_sync_loop
  rw [hstep]
  simp only [neverCancelled, Bool.false_eq_true, if_false]
  refine ⟨by trivial, ?_, by trivial, by trivial, by trivial, by trivial,
    by trivial, ?_⟩
  · simp [initLoopState]
  · simp [initLoopState]

/-- Witness for the amended C1 at a concrete input: a connection error on
the first of two tabs aborts the loop (the second tab is never started) and
the run completes with a warning. -/
theorem C1_abort_stops_loop_witness :
    (classify_and_handle_error (PyExc.requestsConnectionError "down")).1 = false ∧
    abortStopsLoopProp 2030 "2025 Prog-metal"
      (PyExc.requestsConnectionError "down")
      [{ name := "2026", outcome := .ok [] }] DB.empty :=
  ⟨by decide, C1_abort_stops_loop_but_completes 2030 "2025 Prog-metal"
    (PyExc.requestsConnectionError "down")
    [{ name := "2026", outcome := .ok [] }] DB.empty (by decide)⟩

/-- C4 (counterexample): a JIT-mode update of an existing album overwrites
its non-empty `cover_art_url` with `""` — the `defaults` dictionary of
`update_or_create` includes `"cover_art_url": ""` — while the JIT cache
fields survive; so "the album's cover-art URL is left unchanged" fails. -/
theorem C4_counterexample_cover_art_reset :
    (import_single_album_jit 2030 dbWithCachedAlbum rowOpeth
        "1234567890123456789012").map
      (fun p => (p.1.albums.map Album.cover_art_url,
                 p.1.albums.map Album.spotify_cover_url, p.2)) =
      .ok ([some ""], [some "https://i.scdn.co/image/cached"], false) ∧
    cachedAlbum.cover_art_url = some "https://i.scdn.co/image/abc" ∧
    some "" ≠ some "https://i.scdn.co/image/abc" := by
  refine ⟨by rfl, rfl, by decide⟩

/-- C4 (amended): in the default JIT mode, updating an existing album
leaves the four cached-metadata columns (`spotify_cover_url`,
`spotify_cover_cached_at`, `spotify_metadata_json`,
`spotify_metadata_cached_at`) and every other album's row untouched, but
overwrites the updated album's `cover_art_url` with the empty string; the
update reports `created = false`. -/
theorem C4_jit_update_preserves_caches (nowYear : Int) (db : DB)
    (row : RowData) (album_id : String)
    (hex : db.albumExists album_id = true) :
    jitUpdateFrameProp nowYear db row album_id := by
  unfold jitUpdateFrameProp
  intro db' created himp
  have hv : (map_vocal_style (map_genres
      (artist_get_or_create db row.artist row.country).2 row.genre).2
      row.vocal_style).2.albums = db.albums := by
    rw [albums_map_vocal_style, albums_map_genres, albums_artist_get_or_create]
  have hex2 : (map_vocal_style (map_genres
      (artist_get_or_create db row.artist row.country).2 row.genre).2
      row.vocal_style).2.albumExists album_id = true := by
    rw [albumExists_eq_of_albums_eq hv]
    exact hex
  unfold import_single_album_jit at himp
  cases hrd : row_release_date nowYear row with
  | error m => rw [hrd] at himp; simp at himp
  | ok rd =>
    rw [hrd] at himp
    dsimp only at himp
    rw [Except.ok.injEq, Prod.ext_iff] at himp
    obtain ⟨h1, h2⟩ := himp
    dsimp only at h1 h2
    constructor
    · rw [← h2]
      unfold album_update_or_create
      simp [hex2]
    · rw [← h1]
      unfold album_update_or_create
      simp only [hex2, if_true]
      unfold album_set_genres
      dsimp only
      rw [hv, List.map_map]
      rw [List.forall₂_map_right_iff, List.forall₂_same]
      intro a ha
      by_cases hid : a.spotify_album_id = album_id
      · simp only [Function.comp_apply, hid, if_true, applyAlbumDefaults]
        refine ⟨by trivial, by trivial, by trivial, by trivial,
          fun hne => absurd rfl hne, fun _ => by trivial⟩
      · simp only [Function.comp_apply, hid, if_false]
        refine ⟨by trivial, by trivial, by trivial, by trivial,
          fun _ => by trivial, fun hc => hc.elim⟩

/-- Witness for the amended C4 at a concrete store: `cachedAlbum` exists
under the imported identifier, so the frame property applies to it. -/
theorem C4_jit_update_preserves_caches_witness :
    dbWithCachedAlbum.albumExists "1234567890123456789012" = true ∧
    jitUpdateFrameProp 2030 dbWithCachedAlbum rowOpeth "1234567890123456789012" :=
  ⟨by decide, C4_jit_update_preserves_caches 2030 dbWithCachedAlbum rowOpeth
    "1234567890123456789012" (by decide)⟩

theorem totalRowsOk_mkOkTabs (tabss : List (String × List RowData)) :
    totalRowsOk (mkOkTabs tabss) = totalRowCount tabss := by
  unfold totalRowsOk mkOkTabs totalRowCount
  rw [List.map_map]
  rfl

/-- C3: starting from a catalog with duplicate-free external identifiers,
one run keeps the identifiers duplicate-free (so at most one Album row per
identifier ever exists, also for duplicates across tabs of the same run),
counts every row as created or skipped (never duplicating into an update),
and a second run over the same row set leaves every store row identical,
creates and updates nothing, and reports every row as skipped. -/
theorem C3_merge_idempotent_and_duplicate_free (nowYear : Int)
    (tabss : List (String × List RowData)) (db0 : DB)
    (hnd : db0.albumIds.Nodup) :
    mergeIdempotenceProp nowYear tabss db0 := by
  have hok : ∀ t ∈ mkOkTabs tabss, t.aborts = false := by
    intro t ht
    rcases List.mem_map.mp ht with ⟨p, _, rfl⟩
    rfl
  obtain ⟨ri1, tr1, u1, cs1, mem1, nd1, cov1⟩ :=
    process_tabs_run nowYear neverCancelled (mkOkTabs tabss) 1 (initLoopState db0)
      (fun _ _ _ => rfl) hok
  have hskip : ∀ t ∈ mkOkTabs tabss, ∃ rows, t.outcome = .ok rows ∧
      ∀ row ∈ rows, ∀ id, extract_spotify_album_id row.spotify_url = some id →
        (initLoopState (run_sync_loop nowYear neverCancelled (mkOkTabs tabss)
          db0).final.db).db.albumExists id = true ∨
        row_parse_fails nowYear row = true := by
    intro t ht
    rcases List.mem_map.mp ht with ⟨p, hp, rfl⟩
    refine ⟨p.2, rfl, ?_⟩
    intro row hrow id hid
    rcases cov1 _ (List.mem_map.mpr ⟨p, hp, rfl⟩) p.2 rfl row hrow id hid with hin | hf
    · left
      show (process_tabs nowYear neverCancelled (mkOkTabs tabss) 1
        (initLoopState db0)).db.albumExists id = true
      exact (albumExists_iff _ _).mpr hin
    · exact Or.inr hf
  obtain ⟨db2, c2, u2, sk2⟩ :=
    process_tabs_all_skip nowYear neverCancelled (mkOkTabs tabss) 1
      (initLoopState (run_sync_loop nowYear neverCancelled (mkOkTabs tabss)
        db0).final.db)
      (fun _ => rfl) hskip
  unfold mergeIdempotenceProp
  refine ⟨?_, ?_, ?_, ?_, ?_, ?_, ?_⟩
  · show (process_tabs nowYear neverCancelled (mkOkTabs tabss) 1
      (initLoopState db0)).db.albumIds.Nodup
    exact nd1 hnd
  · show (process_tabs nowYear neverCancelled (mkOkTabs tabss) 1
      (initLoopState db0)).updated_count = 0
    rw [u1]
    rfl
  · show (process_tabs nowYear neverCancelled (mkOkTabs tabss) 1
        (initLoopState db0)).created_count +
      (process_tabs nowYear neverCancelled (mkOkTabs tabss) 1
        (initLoopState db0)).skipped_count = totalRowCount tabss
    rw [cs1, totalRowsOk_mkOkTabs]
    simp [initLoopState]
  · show (process_tabs nowYear neverCancelled (mkOkTabs tabss) 1
        (initLoopState (run_sync_loop nowYear neverCancelled (mkOkTabs tabss)
          db0).final.db)).db =
      (run_sync_loop nowYear neverCancelled (mkOkTabs tabss) db0).final.db
    rw [db2]
    rfl
  · show (process_tabs nowYear neverCancelled (mkOkTabs tabss) 1
      (initLoopState (run_sync_loop nowYear neverCancelled (mkOkTabs tabss)
        db0).final.db)).created_count = 0
    rw [c2]
    rfl
  · show (process_tabs nowYear neverCancelled (mkOkTabs tabss) 1
      (initLoopState (run_sync_loop nowYear neverCancelled (mkOkTabs tabss)
        db0).final.db)).updated_count = 0
    rw [u2]
    rfl
  · show (process_tabs nowYear neverCancelled (mkOkTabs tabss) 1
      (initLoopState (run_sync_loop nowYear neverCancelled (mkOkTabs tabss)
        db0).final.db)).skipped_count = totalRowCount tabss
    rw [sk2, totalRowsOk_mkOkTabs]
    simp [initLoopState]

/-- Witness for C3 at a concrete input: the empty catalog is duplicate-free,
and the two sample tabs (which list one identifier twice, across tabs)
satisfy the idempotence property. -/
theorem C3_merge_idempotent_witness :
    DB.empty.albumIds.Nodup ∧ mergeIdempotenceProp 2030 dupTabss DB.empty :=
  ⟨by decide, C3_merge_idempotent_and_duplicate_free 2030 dupTabss DB.empty
    (by decide)⟩

/-- C8: with monotone cancellation reads (a cancelled operation stays
cancelled), if the pre-tab checkpoint before tab `i` is the first to read
`cancelled` (or, for `i` equal to the number of tabs, the final
checkpoint), then the run consists of exactly the first `i` tabs — each
processed to the end, every row of an extracted tab counted exactly once —
and terminates with status `cancelled` (not `completed` or `failed`),
writing a `SyncRecord` that carries the partial counts. -/
theorem C8_cancellation_boundary (nowYear : Int) (cancelRead : Nat → Bool)
    (tabs : List TabInput) (db0 : DB) (i : Nat)
    (hmono : ∀ j k, j ≤ k → cancelRead j = true → cancelRead k = true)
    (hi : i ≤ tabs.length)
    (hbefore : ∀ j, j < i → cancelRead j = false)
    (hread : cancelRead i = true)
    (habort : ∀ t ∈ tabs.take i, t.aborts = false) :
    cancellationBoundaryProp nowYear cancelRead tabs db0 i := by
  have htl : (tabs.take i).length = i := by
    rw [List.length_take]
    exact min_eq_left hi
  have hreads0 : ∀ j, (initLoopState db0).readIdx ≤ j →
      j < (initLoopState db0).readIdx + (tabs.take i).length →
      cancelRead j = false := by
    intro j _ hj2
    apply hbefore
    rw [htl] at hj2
    simpa [initLoopState] using hj2
  obtain ⟨pri, ptr, pu, pcs, _, _, _⟩ :=
    process_tabs_run nowYear cancelRead (tabs.take i) 1 (initLoopState db0)
      hreads0 habort
  have hpri : (process_tabs nowYear cancelRead (tabs.take i) 1
      (initLoopState db0)).readIdx = i := by
    rw [pri, htl]
    simp [initLoopState]
  have hfull :
      ({ process_tabs nowYear cancelRead tabs 1 (initLoopState db0) with
          readIdx := 0 } =
        { process_tabs nowYear cancelRead (tabs.take i) 1 (initLoopState db0) with
          readIdx := 0 }) ∧
      cancelRead (process_tabs nowYear cancelRead tabs 1
        (initLoopState db0)).readIdx = true := by
    rcases Nat.lt_or_ge i tabs.length with hlt | hge
    · have hb := process_tabs_break nowYear cancelRead i tabs 1 (initLoopState db0)
        hlt
        (by intro j h1 h2; apply hbefore; simpa [initLoopState] using h2)
        (by simpa [initLoopState] using hread) habort
      constructor
      · rw [hb]
      · rw [hb]
        show cancelRead ((process_tabs nowYear cancelRead (tabs.take i) 1
          (initLoopState db0)).readIdx + 1) = true
        rw [hpri]
        exact hmono i (i + 1) (by omega) hread
    · have heq : i = tabs.length := le_antisymm hi hge
      have htake : tabs.take i = tabs := by
        rw [heq]
        exact List.take_length tabs
      rw [htake] at hpri
      exact ⟨by rw [htake], by rw [hpri]; exact hread⟩
  obtain ⟨hfeq, hfread⟩ := hfull
  have hfields := hfeq
  simp only [LoopState.mk.injEq, and_true] at hfields
  obtain ⟨hfdb, hfc, hfu, hfsk, hff, hffa, hftp, hfta, hftr⟩ := hfields
  unfold cancellationBoundaryProp
  unfold run_sync_loop
  simp only [hfread, if_true]
  refine ⟨by trivial, ?_, ?_, ?_, ?_, by trivial, ?_, ?_⟩
  · exact hfeq
  · exact hfc
  · exact hfu
  · exact hfsk
  · show (process_tabs nowYear cancelRead tabs 1
      (initLoopState db0)).tab_results.map (fun res => res.name) =
      (tabs.take i).map (fun t => t.name)
    rw [hftr, ptr]
    simp [initLoopState]
  · show (process_tabs nowYear cancelRead (tabs.take i) 1
        (initLoopState db0)).created_count +
      (process_tabs nowYear cancelRead (tabs.take i) 1
        (initLoopState db0)).updated_count +
      (process_tabs nowYear cancelRead (tabs.take i) 1
        (initLoopState db0)).skipped_count = totalRowsOk (tabs.take i)
    have pcs2 : (process_tabs nowYear cancelRead (tabs.take i) 1
        (initLoopState db0)).created_count +
        (process_tabs nowYear cancelRead (tabs.take i) 1
          (initLoopState db0)).skipped_count = totalRowsOk (tabs.take i) := by
      rw [pcs]
      simp [initLoopState]
    have pu2 : (process_tabs nowYear cancelRead (tabs.take i) 1
        (initLoopState db0)).updated_count = 0 := by
      rw [pu]
      rfl
    omega

/-- Witness for C8 at a concrete input: the cancellation flag flips to
`cancelled` from the second checkpoint on, so the first of the two sample
tabs runs to completion and the run terminates `cancelled`. -/
theorem C8_cancellation_boundary_witness :
    (∀ j k, j ≤ k → cancelAfterOne j = true → cancelAfterOne k = true) ∧
    1 ≤ twoOkTabs.length ∧
    (∀ j, j < 1 → cancelAfterOne j = false) ∧
    cancelAfterOne 1 = true ∧
    (∀ t ∈ twoOkTabs.take 1, t.aborts = false) ∧
    cancellationBoundaryProp 2030 cancelAfterOne twoOkTabs DB.empty 1 :=
  ⟨fun j k hjk hj => by
      simp only [cancelAfterOne, decide_eq_true_eq] at hj ⊢
      omega,
   by decide,
   fun j hj => by
      simp only [cancelAfterOne, decide_eq_false_iff_not]
      omega,
   by decide,
   by decide,
   C8_cancellation_boundary 2030 cancelAfterOne twoOkTabs DB.empty 1
     (fun j k hjk hj => by
        simp only [cancelAfterOne, decide_eq_true_eq] at hj ⊢
        omega)
     (by decide)
     (fun j hj => by
        simp only [cancelAfterOne, decide_eq_false_iff_not]
        omega)
     (by decide)
     (by decide)⟩

end ProgMetal
